import Mathlib

/-!
Verification of the dontbug replay-bridge engine (Go sources under `engine/`)
against its natural-language specification.

The Go code is shallowly embedded: pure helpers become Lean functions, the
engine's interaction with gdb/MI is modelled as a state-passing interpreter
whose inputs (stop notifications, breakpoint ids assigned by gdb, values of
`data-evaluate-expression`) come from an explicit oracle, and whose outputs
(the exact gdb/MI commands issued, registry updates, responses) are recorded
explicitly.  Go `panic` / `log.Panic` and `log.Fatal` are distinguished: the
former is recoverable by `recover()` at enclosing defers, the latter kills
the process.

Go maps are modelled as association lists with unique keys in a fixed order
(Go's map iteration order is unspecified; the model fixes the list order).
Go byte strings are modelled as `String` (char-based; all sentinels and
slicing offsets in the sources are ASCII, where byte and char indices agree).
-/

namespace Dontbug

/-! ## Byte-level DBGp framing (`constructDbgpPacket`, engine/base.go) -/

/-- The fixed XML declaration `header_xml` of `constructDbgpPacket`
(engine/base.go).  Kept as a string, converted to bytes below. -/
def headerXml : String := "<?xml version=\"1.0\" encoding=\"iso-8859-1\"?>\n"

/-- The declaration as a byte list (it is pure ASCII, so each char is one
byte). -/
def headerXmlBytes : List Nat := headerXml.toList.map Char.toNat

/-- Decimal ASCII digits of a natural number, least significant digit last;
this is `strconv.Itoa` for the non-negative arguments it receives in
`constructDbgpPacket` (a length, hence a `Nat`). -/
def natDecDigits (n : Nat) : List Nat :=
  if h : n < 10 then [n + 48]
  else natDecDigits (n / 10) ++ [n % 10 + 48]
  termination_by n
  decreasing_by exact Nat.div_lt_self (Nat.lt_of_lt_of_le (by norm_num) (Nat.le_of_not_lt h)) (by norm_num)

/-- `constructDbgpPacket` (engine/base.go): decimal ASCII byte length of
declaration-plus-payload, a null byte, the declaration, the payload, a
trailing null byte.  The payload is a byte list. -/
def constructDbgpPacket (payload : List Nat) : List Nat :=
  natDecDigits (payload.length + headerXmlBytes.length) ++ [0] ++ headerXmlBytes ++ payload ++ [0]

/-- Is the byte an ASCII decimal digit? -/
def isDigitByte (b : Nat) : Bool := 48 ≤ b && b ≤ 57

/-- Value of a list of ASCII decimal digit bytes. -/
def decVal (l : List Nat) : Nat := l.foldl (fun a b => a * 10 + (b - 48)) 0

/-- Parse a non-empty all-digit byte list as a decimal number (the "read the
length" step of the decoder described by the spec). -/
def parseDecBytes (l : List Nat) : Option Nat :=
  if l ≠ [] ∧ l.all isDigitByte then some (decVal l) else none

/-- Decoder written from the spec's words: read the length up to the first
null byte, take that many bytes as the body, check the single trailing null,
strip the XML declaration off the body. -/
def decodeDbgpPacket (packet : List Nat) : Option (List Nat) :=
  let lenBytes := packet.takeWhile (fun b => b != 0)
  match parseDecBytes lenBytes with
  | none => none
  | some l =>
    let rest := packet.drop (lenBytes.length + 1)
    let body := rest.take l
    if rest.drop l = [0] ∧ headerXmlBytes.isPrefixOf body then
      some (body.drop headerXmlBytes.length)
    else none

theorem natDecDigits_ne_nil (n : Nat) : natDecDigits n ≠ [] := by
  rw [natDecDigits]
  split
  · simp
  · simp

theorem natDecDigits_all_digits (n : Nat) : (natDecDigits n).all isDigitByte = true := by
  induction n using Nat.strong_induction_on with
  | _ n ih =>
    rw [natDecDigits]
    split
    · rename_i h
      simp [isDigitByte]
      omega
    · rename_i h
      rw [List.all_append]
      rw [ih (n / 10) (Nat.div_lt_self (by omega) (by norm_num))]
      have hm : n % 10 < 10 := Nat.mod_lt _ (by norm_num)
      simp [isDigitByte]
      omega

theorem decVal_append_single (l : List Nat) (b : Nat) :
    decVal (l ++ [b]) = decVal l * 10 + (b - 48) := by
  simp [decVal, List.foldl_append]

theorem decVal_natDecDigits (n : Nat) : decVal (natDecDigits n) = n := by
  induction n using Nat.strong_induction_on with
  | _ n ih =>
    rw [natDecDigits]
    split
    · rename_i h
      simp [decVal]
    · rename_i h
      rw [decVal_append_single]
      rw [ih (n / 10) (Nat.div_lt_self (by omega) (by norm_num))]
      omega

theorem parseDecBytes_natDecDigits (n : Nat) :
    parseDecBytes (natDecDigits n) = some n := by
  unfold parseDecBytes
  rw [if_pos ⟨natDecDigits_ne_nil n, natDecDigits_all_digits n⟩, decVal_natDecDigits]

theorem takeWhile_digits_append (l tail : List Nat) (h : l.all isDigitByte = true) :
    ((l ++ 0 :: tail).takeWhile (fun b => b != 0)) = l := by
  induction l with
  | nil => simp [List.takeWhile]
  | cons a l ihl =>
    simp only [List.all_cons, Bool.and_eq_true] at h
    have ha : (a != 0) = true := by
      simp [isDigitByte] at h
      simp
      omega
    simp only [List.cons_append, List.takeWhile_cons, ha, if_true]
    rw [ihl h.2]

theorem drop_len_succ_append (l tail : List Nat) (x : Nat) :
    (l ++ x :: tail).drop (l.length + 1) = tail := by
  induction l with
  | nil => simp
  | cons a l ihl => simp [ihl]

theorem take_len_append {α : Type} (l tail : List α) : (l ++ tail).take l.length = l := by
  induction l with
  | nil => simp
  | cons a l ihl => simp [ihl]

theorem drop_len_append {α : Type} (l tail : List α) : (l ++ tail).drop l.length = tail := by
  induction l with
  | nil => simp
  | cons a l ihl => simp [ihl]

theorem isPrefixOf_self_append (l tail : List Nat) : l.isPrefixOf (l ++ tail) = true := by
  induction l with
  | nil => simp [List.isPrefixOf]
  | cons a l ihl => simp [List.isPrefixOf, ihl]

/-- C3: the framed DBGp packet is the decimal ASCII byte length of the
declaration plus the payload, a null, the declaration, the payload, and a
trailing null; decoding per the spec recovers the payload for every payload,
and the length prefix equals declaration length plus payload length. -/
theorem c3_dbgp_packet_roundtrip (R : List Nat) :
    decodeDbgpPacket (constructDbgpPacket R) = some R ∧
    parseDecBytes ((constructDbgpPacket R).takeWhile (fun b => b != 0)) =
      some (headerXmlBytes.length + R.length) := by
  have hdigits : (natDecDigits (R.length + headerXmlBytes.length)).all isDigitByte = true :=
    natDecDigits_all_digits _
  have htake : (constructDbgpPacket R).takeWhile (fun b => b != 0) =
      natDecDigits (R.length + headerXmlBytes.length) := by
    unfold constructDbgpPacket
    have : natDecDigits (R.length + headerXmlBytes.length) ++ [0] ++ headerXmlBytes ++ R ++ [0] =
        natDecDigits (R.length + headerXmlBytes.length) ++ 0 :: (headerXmlBytes ++ R ++ [0]) := by
      simp
    rw [this, takeWhile_digits_append _ _ hdigits]
  have hlenpfx : parseDecBytes ((constructDbgpPacket R).takeWhile (fun b => b != 0)) =
      some (headerXmlBytes.length + R.length) := by
    rw [htake, parseDecBytes_natDecDigits, Nat.add_comm]
  refine ⟨?_, hlenpfx⟩
  have hdrop : (constructDbgpPacket R).drop
      ((natDecDigits (R.length + headerXmlBytes.length)).length + 1) =
      headerXmlBytes ++ R ++ [0] := by
    unfold constructDbgpPacket
    have h : natDecDigits (R.length + headerXmlBytes.length) ++ [0] ++ headerXmlBytes ++ R ++ [0] =
        natDecDigits (R.length + headerXmlBytes.length) ++ 0 :: (headerXmlBytes ++ R ++ [0]) := by
      simp
    rw [h, drop_len_succ_append]
  have hbodylen : (headerXmlBytes ++ R).length = R.length + headerXmlBytes.length := by
    simp [Nat.add_comm]
  have htakebody : (headerXmlBytes ++ R ++ [0]).take (R.length + headerXmlBytes.length) =
      headerXmlBytes ++ R := by
    have h := take_len_append (headerXmlBytes ++ R) [0]
    rwa [hbodylen] at h
  have hdropbody : (headerXmlBytes ++ R ++ [0]).drop (R.length + headerXmlBytes.length) = [0] := by
    have h := drop_len_append (headerXmlBytes ++ R) [0]
    rwa [hbodylen] at h
  simp only [decodeDbgpPacket, htake, parseDecBytes_natDecDigits, hdrop, htakebody, hdropbody]
  rw [if_pos ⟨trivial, isPrefixOf_self_append headerXmlBytes R⟩]
  rw [drop_len_append]

/-! ## Go string helpers -/

/-- Chars after the first occurrence of `pat`; `none` when `pat` does not
occur.  This is `strings.Index` followed by slicing `s[idx+len(pat):]`. -/
def afterFirstAux (pat : List Char) : List Char → Option (List Char)
  | [] => if pat.isEmpty then some [] else none
  | c :: rest =>
    if pat.isPrefixOf (c :: rest) then some ((c :: rest).drop pat.length)
    else afterFirstAux pat rest

/-- String wrapper for `afterFirstAux`. -/
def strAfterFirst (pat s : String) : Option String :=
  (afterFirstAux pat.toList s.toList).map fun l => String.mk l

/-- Go `strings.TrimSpace`: drop whitespace from both ends. -/
def goTrim (s : String) : String :=
  String.mk (((s.toList.dropWhile Char.isWhitespace).reverse.dropWhile
    Char.isWhitespace).reverse)

/-- Decimal digits to a number; `none` when empty or a non-digit occurs. -/
def digitsToNat (cs : List Char) : Option Nat :=
  if cs ≠ [] ∧ cs.all Char.isDigit then
    some (cs.foldl (fun a c => a * 10 + (c.toNat - 48)) 0)
  else none

/-- Go `strconv.Atoi`: optional sign, then decimal digits; anything else is
an error.  (Go's 64-bit overflow error is not modelled; no claim involves
numbers near 2^63.) -/
def goAtoi (s : String) : Option Int :=
  match s.toList with
  | '+' :: rest => (digitsToNat rest).map fun n => (n : Int)
  | '-' :: rest => (digitsToNat rest).map fun n => -(n : Int)
  | cs => (digitsToNat cs).map fun n => (n : Int)

/-- Accumulator-based splitter for `goFields`. -/
def fieldsAux : List Char → List Char → List String
  | [], acc => if acc.isEmpty then [] else [String.mk acc.reverse]
  | c :: rest, acc =>
    if c.isWhitespace then
      if acc.isEmpty then fieldsAux rest [] else String.mk acc.reverse :: fieldsAux rest []
    else fieldsAux rest (c :: acc)

/-- Go `strings.Fields`: split on whitespace runs, no empty fields. -/
def goFields (s : String) : List String := fieldsAux s.toList []

/-- Association-list lookup modelling Go map indexing `m[k]`. -/
def alistLookup {α : Type} : List (String × α) → String → Option α
  | [], _ => none
  | (k1, v) :: rest, k => if k1 = k then some v else alistLookup rest k

/-! ## Location index (`constructBreakpointLocMap`, engine/replay.go)

The instrumentation file is modelled as the list of its lines (line
terminators stripped; every extracted fragment is passed through `TrimSpace`
in the source, so a trailing newline never matters).  `log.Fatal` exits and
Go runtime panics (out-of-range index, `make` with negative size) are both
modelled as `Except.error` values, with distinct tags. -/

def numFilesSentinel : String := "//&&& Number of Files:"

def maxStackDepthSentinel : String := "//&&& Max Stack Depth:"

def phpFilenameSentinel : String := "//###"

def levelSentinel : String := "//$$$"

/-- `dontbugCpathStartsAt` (engine/base.go): the file URI starts this many
bytes past the position of the `//###` marker (one byte past the marker). -/
def dontbugCpathStartsAt : Nat := 6

inductive LocErr where
  | readHeaderFailed
  | sentinelMissing (marker : String)
  | countNotInt
  | negativeDepthPanic
  | duplicateFile (f : String)
  | levelIndexPanic
  | fileCountMismatch (declared : Int) (found : Nat)
deriving DecidableEq, Repr

/-- URI recorded for a line bearing a `//###` marker:
`strings.TrimSpace("file://" + line[indexB+dontbugCpathStartsAt:])`.
The slice starts one char past the 5-char marker. -/
def fileMarkerUri (line : String) : String :=
  match strAfterFirst phpFilenameSentinel line with
  | none => ""
  | some after => goTrim ("file://" ++ String.mk (after.toList.drop 1))

/-- The body loop of `constructBreakpointLocMap`: scan lines for `//###`
and `//$$$` markers.  `lineno` is the number of lines already consumed. -/
def locScanLoop : List String → List (String × Nat) → List Nat → Nat → Nat →
    Except LocErr (List (String × Nat) × List Nat)
  | [], bpLocMap, levelLocAr, _, _ => .ok (bpLocMap, levelLocAr)
  | line :: rest, bpLocMap, levelLocAr, level, lineno =>
    let lineno1 := lineno + 1
    match strAfterFirst phpFilenameSentinel line with
    | some _ =>
      let filename := fileMarkerUri line
      if (alistLookup bpLocMap filename).isSome then .error (.duplicateFile filename)
      else
        match strAfterFirst levelSentinel line with
        | none => locScanLoop rest (bpLocMap ++ [(filename, lineno1)]) levelLocAr level lineno1
        | some _ =>
          if level < levelLocAr.length then
            locScanLoop rest (bpLocMap ++ [(filename, lineno1)])
              (levelLocAr.set level lineno1) (level + 1) lineno1
          else .error .levelIndexPanic
    | none =>
      match strAfterFirst levelSentinel line with
      | none => locScanLoop rest bpLocMap levelLocAr level lineno1
      | some _ =>
        if level < levelLocAr.length then
          locScanLoop rest bpLocMap (levelLocAr.set level lineno1) (level + 1) lineno1
        else .error .levelIndexPanic

/-- `constructBreakpointLocMap` (engine/replay.go): parse the two header
sentinels, then scan the remaining lines; returns the file table, the level
table (length = declared max stack depth) and the declared max stack depth. -/
def constructBreakpointLocMap (lines : List String) :
    Except LocErr (List (String × Nat) × List Nat × Int) :=
  match lines with
  | [] => .error .readHeaderFailed
  | line1 :: rest1 =>
    match strAfterFirst numFilesSentinel line1 with
    | none => .error (.sentinelMissing numFilesSentinel)
    | some afterN =>
      match goAtoi (goTrim afterN) with
      | none => .error .countNotInt
      | some numFiles =>
        match rest1 with
        | [] => .error .readHeaderFailed
        | line2 :: rest2 =>
          match strAfterFirst maxStackDepthSentinel line2 with
          | none => .error (.sentinelMissing maxStackDepthSentinel)
          | some afterD =>
            match goAtoi (goTrim afterD) with
            | none => .error .countNotInt
            | some maxStackDepth =>
              if maxStackDepth < 0 then .error .negativeDepthPanic
              else
                match locScanLoop rest2 [] (List.replicate maxStackDepth.toNat 0) 0 2 with
                | .error e => .error e
                | .ok (bpLocMap, levelLocAr) =>
                  if (bpLocMap.length : Int) ≠ numFiles then
                    .error (.fileCountMismatch numFiles bpLocMap.length)
                  else .ok (bpLocMap, levelLocAr, maxStackDepth)

/-! Spec-side descriptions (independent scans, written from the claim's
words) used to characterize `constructBreakpointLocMap`. -/

/-- Does the line carry a `//###` file marker? -/
def lineHasFileMarker (line : String) : Bool :=
  (strAfterFirst phpFilenameSentinel line).isSome

/-- Does the line carry a `//$$$` level marker? -/
def lineHasLevelMarker (line : String) : Bool :=
  (strAfterFirst levelSentinel line).isSome

/-- The (URI, 1-based line number) pairs of the file-marker lines of `body`,
in encounter order, where `lineno` lines precede `body`. -/
def fileEntriesFrom : List String → Nat → List (String × Nat)
  | [], _ => []
  | l :: rest, lineno =>
    (if lineHasFileMarker l then [(fileMarkerUri l, lineno + 1)] else []) ++
      fileEntriesFrom rest (lineno + 1)

/-- The 1-based line numbers of the level-marker lines of `body`, in
encounter order, where `lineno` lines precede `body`. -/
def levelLinesFrom : List String → Nat → List Nat
  | [], _ => []
  | l :: rest, lineno =>
    (if lineHasLevelMarker l then [lineno + 1] else []) ++ levelLinesFrom rest (lineno + 1)

/-- Boolean membership in a list of strings. -/
def strListHas (l : List String) (u : String) : Bool := l.any fun x => x = u

/-- Each URI is distinct from all previously seen ones ("duplicate file
entries are an error"). -/
def urisFresh : List String → List (String × Nat) → Bool
  | _, [] => true
  | seen, (u, _) :: rest => !(strListHas seen u) && urisFresh (seen ++ [u]) rest

/-- Writing a list of values into consecutive slots of an array starting at
`level` (the in-place updates `levelLocAr[level] = lineno; level++`). -/
def writeLevels : List Nat → Nat → List Nat → List Nat
  | ar, _, [] => ar
  | ar, level, x :: xs => writeLevels (ar.set level x) (level + 1) xs

/-- Declared file count: sentinel of the first line, trimmed, as an integer
(spec side). -/
def locHeaderNum (lines : List String) : Option Int :=
  match lines with
  | [] => none
  | l1 :: _ =>
    match strAfterFirst numFilesSentinel l1 with
    | none => none
    | some a => goAtoi (goTrim a)

/-- Declared max stack depth: sentinel of the second line, trimmed, as an
integer (spec side). -/
def locHeaderDepth (lines : List String) : Option Int :=
  match lines with
  | _ :: l2 :: _ =>
    match strAfterFirst maxStackDepthSentinel l2 with
    | none => none
    | some a => goAtoi (goTrim a)
  | _ => none

theorem alistLookup_isSome {α : Type} (m : List (String × α)) (k : String) :
    (alistLookup m k).isSome = strListHas (m.map Prod.fst) k := by
  induction m with
  | nil => simp [alistLookup, strListHas]
  | cons p rest ih =>
    obtain ⟨k1, v⟩ := p
    by_cases h : k1 = k
    · simp [alistLookup, strListHas, h]
    · simp [alistLookup, strListHas, h, ih]

theorem fileEntriesFrom_cons (l : String) (rest : List String) (n : Nat) :
    fileEntriesFrom (l :: rest) n =
      (if lineHasFileMarker l then [(fileMarkerUri l, n + 1)] else []) ++
        fileEntriesFrom rest (n + 1) := rfl

theorem levelLinesFrom_cons (l : String) (rest : List String) (n : Nat) :
    levelLinesFrom (l :: rest) n =
      (if lineHasLevelMarker l then [n + 1] else []) ++ levelLinesFrom rest (n + 1) := rfl

theorem writeLevels_cons (ar : List Nat) (level x : Nat) (xs : List Nat) :
    writeLevels ar level (x :: xs) = writeLevels (ar.set level x) (level + 1) xs := rfl

theorem locScanLoop_ok_iff (body : List String) :
    ∀ (acc : List (String × Nat)) (ar : List Nat) (level lineno : Nat)
      (m' : List (String × Nat)) (ar' : List Nat), level ≤ ar.length →
      (locScanLoop body acc ar level lineno = .ok (m', ar') ↔
        (urisFresh (acc.map Prod.fst) (fileEntriesFrom body lineno) = true ∧
         level + (levelLinesFrom body lineno).length ≤ ar.length ∧
         m' = acc ++ fileEntriesFrom body lineno ∧
         ar' = writeLevels ar level (levelLinesFrom body lineno))) := by
  induction body with
  | nil =>
    intro acc ar level lineno m' ar' h
    simp only [locScanLoop]
    constructor
    · intro he
      injection he with he2
      injection he2 with hm ha
      subst hm; subst ha
      exact ⟨rfl, by simpa using h, by simp [fileEntriesFrom],
        by simp [levelLinesFrom, writeLevels]⟩
    · rintro ⟨-, -, hm, ha⟩
      rw [hm, ha]
      simp [fileEntriesFrom, levelLinesFrom, writeLevels]
  | cons line rest ih =>
    intro acc ar level lineno m' ar' h
    cases hB : strAfterFirst phpFilenameSentinel line with
    | some after =>
      have hBmark : lineHasFileMarker line = true := by
        simp [lineHasFileMarker, hB]
      by_cases hdup : (alistLookup acc (fileMarkerUri line)).isSome
      · have hc : strListHas (acc.map Prod.fst) (fileMarkerUri line) = true := by
          rw [← alistLookup_isSome]; exact hdup
        have hfresh : urisFresh (acc.map Prod.fst)
            (fileEntriesFrom (line :: rest) lineno) = false := by
          rw [fileEntriesFrom_cons, hBmark]
          simp [urisFresh, hc]
        cases hL : strAfterFirst levelSentinel line with
        | none =>
          simp only [locScanLoop, hB, hL, hdup, if_true]
          constructor
          · intro hcontr; cases hcontr
          · rintro ⟨hf, -⟩; rw [hfresh] at hf; cases hf
        | some _ =>
          simp only [locScanLoop, hB, hL, hdup, if_true]
          constructor
          · intro hcontr; cases hcontr
          · rintro ⟨hf, -⟩; rw [hfresh] at hf; cases hf
      · have hc : strListHas (acc.map Prod.fst) (fileMarkerUri line) = false := by
          rw [← alistLookup_isSome]; simpa using hdup
        have hdupf : (alistLookup acc (fileMarkerUri line)).isSome = false := by
          simpa using hdup
        have hmapfst : ((acc ++ [(fileMarkerUri line, lineno + 1)]).map Prod.fst) =
            acc.map Prod.fst ++ [fileMarkerUri line] := by simp
        have hfreshIff : ∀ fe : List (String × Nat),
            urisFresh (acc.map Prod.fst ++ [fileMarkerUri line]) fe = true ↔
            urisFresh (acc.map Prod.fst)
              ((fileMarkerUri line, lineno + 1) :: fe) = true := by
          intro fe
          simp [urisFresh, hc]
        cases hL : strAfterFirst levelSentinel line with
        | none =>
          have hLmark : lineHasLevelMarker line = false := by
            simp [lineHasLevelMarker, hL]
          have hIH := ih (acc ++ [(fileMarkerUri line, lineno + 1)]) ar level (lineno + 1)
            m' ar' h
          rw [hmapfst] at hIH
          simp only [locScanLoop, hB, hL, hdupf, Bool.false_eq_true, if_false]
          rw [hIH, fileEntriesFrom_cons, levelLinesFrom_cons, hBmark, hLmark]
          simp only [if_true, if_false, List.nil_append, List.singleton_append]
          exact and_congr (hfreshIff _)
            (and_congr Iff.rfl (and_congr (by simp) Iff.rfl))
        | some _ =>
          have hLmark : lineHasLevelMarker line = true := by
            simp [lineHasLevelMarker, hL]
          by_cases hlt : level < ar.length
          · have hIH := ih (acc ++ [(fileMarkerUri line, lineno + 1)])
              (ar.set level (lineno + 1)) (level + 1) (lineno + 1) m' ar'
              (by rw [List.length_set]; omega)
            rw [hmapfst] at hIH
            simp only [locScanLoop, hB, hL, hdupf, Bool.false_eq_true, if_false, hlt,
              if_true]
            rw [hIH, fileEntriesFrom_cons, levelLinesFrom_cons, hBmark, hLmark]
            simp only [if_true, List.singleton_append]
            rw [List.length_set]
            exact and_congr (hfreshIff _)
              (and_congr (by rw [List.length_cons]; omega)
                (and_congr (by simp) (by rw [writeLevels_cons])))
          · simp only [locScanLoop, hB, hL, hdupf, Bool.false_eq_true, if_false, hlt]
            constructor
            · intro hcontr; cases hcontr
            · rintro ⟨-, hlen, -⟩
              rw [levelLinesFrom_cons, hLmark] at hlen
              simp only [if_true, List.singleton_append, List.length_cons] at hlen
              omega
    | none =>
      have hBmark : lineHasFileMarker line = false := by
        simp [lineHasFileMarker, hB]
      cases hL : strAfterFirst levelSentinel line with
      | none =>
        have hLmark : lineHasLevelMarker line = false := by
          simp [lineHasLevelMarker, hL]
        have hIH := ih acc ar level (lineno + 1) m' ar' h
        simp only [locScanLoop, hB, hL]
        rw [hIH, fileEntriesFrom_cons, levelLinesFrom_cons, hBmark, hLmark]
        simp
      | some _ =>
        have hLmark : lineHasLevelMarker line = true := by
          simp [lineHasLevelMarker, hL]
        by_cases hlt : level < ar.length
        · have hIH := ih acc (ar.set level (lineno + 1)) (level + 1) (lineno + 1) m' ar'
            (by rw [List.length_set]; omega)
          simp only [locScanLoop, hB, hL, hlt, if_true]
          rw [hIH, fileEntriesFrom_cons, levelLinesFrom_cons, hBmark, hLmark]
          simp only [if_true, if_false, List.nil_append, List.singleton_append]
          rw [List.length_set]
          exact and_congr Iff.rfl
            (and_congr (by rw [List.length_cons]; omega)
              (and_congr Iff.rfl (by rw [writeLevels_cons])))
        · simp only [locScanLoop, hB, hL, hlt]
          constructor
          · intro hcontr; cases hcontr
          · rintro ⟨-, hlen, -⟩
            rw [levelLinesFrom_cons, hLmark] at hlen
            simp only [if_true, List.singleton_append, List.length_cons] at hlen
            omega

theorem set_append_len {α : Type} (pre : List α) (a : α) (t : List α) (x : α) :
    (pre ++ a :: t).set pre.length x = pre ++ x :: t := by
  induction pre with
  | nil => simp
  | cons b pre ih => simp [List.set, ih]

theorem writeLevels_replicate (xs : List Nat) :
    ∀ (pre : List Nat) (k : Nat), xs.length ≤ k →
      writeLevels (pre ++ List.replicate k 0) pre.length xs =
        pre ++ xs ++ List.replicate (k - xs.length) 0 := by
  induction xs with
  | nil => intro pre k _; simp [writeLevels]
  | cons x xs ihx =>
    intro pre k hk
    have hk1 : 1 ≤ k := by simp at hk; omega
    have hrep : List.replicate k (0 : Nat) = 0 :: List.replicate (k - 1) 0 := by
      cases k with
      | zero => omega
      | succ k0 => simp [List.replicate]
    rw [writeLevels, hrep, set_append_len]
    have h1 : pre ++ x :: List.replicate (k - 1) 0 =
        (pre ++ [x]) ++ List.replicate (k - 1) 0 := by simp
    have h2 : pre.length + 1 = (pre ++ [x]).length := by simp
    rw [h1, h2, ihx (pre ++ [x]) (k - 1) (by simp at hk ⊢; omega)]
    have h3 : k - 1 - xs.length = k - (x :: xs).length := by simp; omega
    simp [h3]

/-- C5 (amended): the location-index construction succeeds exactly when the
two header sentinels parse as integers, the declared depth is non-negative,
no file URI repeats, the level markers do not outnumber the declared depth,
and the declared file count equals the number of file markers; the result is
then the file table in encounter order with 1-based line numbers counting
the header lines, the level-marker line numbers in encounter order padded
with zeros to the declared depth, and the declared depth. -/
theorem c5_loc_index_characterization (lines : List String) (m : List (String × Nat))
    (ar : List Nat) (d : Int) :
    constructBreakpointLocMap lines = .ok (m, ar, d) ↔
      (locHeaderNum lines = some ((fileEntriesFrom (lines.drop 2) 2).length : Int) ∧
       locHeaderDepth lines = some d ∧ 0 ≤ d ∧
       urisFresh [] (fileEntriesFrom (lines.drop 2) 2) = true ∧
       (levelLinesFrom (lines.drop 2) 2).length ≤ d.toNat ∧
       m = fileEntriesFrom (lines.drop 2) 2 ∧
       ar = levelLinesFrom (lines.drop 2) 2 ++
         List.replicate (d.toNat - (levelLinesFrom (lines.drop 2) 2).length) 0) := by
  match lines with
  | [] => simp [constructBreakpointLocMap, locHeaderNum]
  | [line1] =>
    cases h1 : strAfterFirst numFilesSentinel line1 with
    | none => simp [constructBreakpointLocMap, locHeaderNum, h1]
    | some afterN =>
      cases h2 : goAtoi (goTrim afterN) with
      | none => simp [constructBreakpointLocMap, locHeaderNum, locHeaderDepth, h1, h2]
      | some numFiles =>
        simp [constructBreakpointLocMap, locHeaderNum, locHeaderDepth, h1, h2]
  | line1 :: line2 :: body =>
    cases h1 : strAfterFirst numFilesSentinel line1 with
    | none => simp [constructBreakpointLocMap, locHeaderNum, h1]
    | some afterN =>
      cases h2 : goAtoi (goTrim afterN) with
      | none => simp [constructBreakpointLocMap, locHeaderNum, locHeaderDepth, h1, h2]
      | some numFiles =>
        cases h3 : strAfterFirst maxStackDepthSentinel line2 with
        | none => simp [constructBreakpointLocMap, locHeaderNum, locHeaderDepth, h1, h2, h3]
        | some afterD =>
          cases h4 : goAtoi (goTrim afterD) with
          | none =>
            simp [constructBreakpointLocMap, locHeaderNum, locHeaderDepth, h1, h2, h3, h4]
          | some depth =>
            simp only [constructBreakpointLocMap, locHeaderNum, locHeaderDepth, h1, h2, h3,
              h4, List.drop_succ_cons, List.drop_zero]
            by_cases h5 : depth < 0
            · simp only [h5, if_true]
              constructor
              · intro hcontr; cases hcontr
              · rintro ⟨-, hd, hd0, -⟩
                rw [Option.some_inj] at hd
                omega
            · simp only [h5, if_false]
              have hloop := locScanLoop_ok_iff body []
                (List.replicate depth.toNat 0) 0 2
              cases hres : locScanLoop body [] (List.replicate depth.toNat 0) 0 2 with
              | error e =>
                simp only [hres]
                constructor
                · intro hcontr; cases hcontr
                · rintro ⟨hn, hd, hd0, hfresh, hlen, hm, har⟩
                  rw [Option.some_inj] at hd
                  subst hd
                  have hw := writeLevels_replicate (levelLinesFrom body 2) [] depth.toNat
                    (by omega)
                  simp only [List.nil_append, List.length_nil] at hw
                  have hok := (hloop (fileEntriesFrom body 2)
                    (levelLinesFrom body 2 ++
                      List.replicate (depth.toNat - (levelLinesFrom body 2).length) 0)
                    (Nat.zero_le _)).mpr
                    ⟨by simpa using hfresh, by simp; omega, by simp, by rw [hw]⟩
                  rw [hres] at hok
                  cases hok
              | ok p =>
                obtain ⟨bpm, lar⟩ := p
                have hchar := (hloop bpm lar (Nat.zero_le _)).mp (by rw [hres])
                have hlenle : (levelLinesFrom body 2).length ≤ depth.toNat := by
                  have hx := hchar.2.1
                  simp only [List.length_replicate, Nat.zero_add] at hx
                  omega
                have hw := writeLevels_replicate (levelLinesFrom body 2) [] depth.toNat hlenle
                simp only [List.nil_append, List.length_nil] at hw
                simp only [hres]
                by_cases h6 : (bpm.length : Int) = numFiles
                · rw [if_neg (by simp [h6])]
                  constructor
                  · intro hok
                    injection hok with hok2
                    injection hok2 with hbm hok3
                    injection hok3 with hla hdd
                    subst hbm; subst hla; subst hdd
                    refine ⟨?_, rfl, by omega, by simpa using hchar.1, hlenle, by
                        rw [hchar.2.2.1]; simp, by rw [hchar.2.2.2, hw]⟩
                    · rw [Option.some_inj, ← h6, hchar.2.2.1]
                      simp
                  · rintro ⟨hn, hd, hd0, hfresh, hlen, hm, har⟩
                    rw [Option.some_inj] at hd
                    subst hd
                    have hbm : bpm = fileEntriesFrom body 2 := by
                      rw [hchar.2.2.1]; simp
                    have hla : lar = levelLinesFrom body 2 ++
                        List.replicate (depth.toNat - (levelLinesFrom body 2).length) 0 := by
                      rw [hchar.2.2.2, hw]
                    rw [hbm, hla, hm, har]
                · rw [if_pos (by simpa using h6)]
                  constructor
                  · intro hcontr; cases hcontr
                  · rintro ⟨hn, hd, hd0, hfresh, hlen, hm, har⟩
                    rw [Option.some_inj] at hn hd
                    subst hd
                    exact absurd (by rw [hn, hchar.2.2.1]; simp) h6

/-- A three-line instrumentation file: headers declaring zero files and zero
max stack depth, then one level-marker line. -/
def c5DemoLines : List String :=
  ["//&&& Number of Files: 0", "//&&& Max Stack Depth: 0", "//$$$"]

/-- C5 counterexample: on `c5DemoLines` every failure condition listed by the
claim is absent (both sentinels present and integer-valued, no duplicate
file URI, file-marker count equals the declared N), yet the construction
does not return the table: the third line's level marker makes
`levelLocAr[level]` index out of range (`D = 0`), a Go runtime panic. -/
theorem c5_counterexample :
    locHeaderNum c5DemoLines = some 0 ∧
    locHeaderDepth c5DemoLines = some 0 ∧
    urisFresh [] (fileEntriesFrom (c5DemoLines.drop 2) 2) = true ∧
    ((fileEntriesFrom (c5DemoLines.drop 2) 2).length : Int) = 0 ∧
    constructBreakpointLocMap c5DemoLines = .error .levelIndexPanic := by
  refine ⟨?_, ?_, ?_, ?_, ?_⟩ <;> rfl

/-! ## Engine data model (engine/engine.go, engine/breakpoints.go) -/

/-- Decimal rendering of a `Nat` (kernel-reducible `strconv.Itoa`). -/
def natToDec (n : Nat) : String := String.mk ((natDecDigits n).map Char.ofNat)

/-- Decimal rendering of an `Int` (`%v` / `strconv.Itoa`). -/
def intToDec (i : Int) : String :=
  if i < 0 then "-" ++ natToDec i.natAbs else natToDec i.natAbs

inductive BreakpointType where
  | line | call | ret | exception | conditional | watch | internal
deriving DecidableEq, Repr

/-- `stringToBreakpointType` (engine/breakpoints.go); deliberately omits the
internal type. -/
def stringToBreakpointType (t : String) : Except String BreakpointType :=
  if t = "line" then .ok .line
  else if t = "call" then .ok .call
  else if t = "return" then .ok .ret
  else if t = "exception" then .ok .exception
  else if t = "conditional" then .ok .conditional
  else if t = "watch" then .ok .watch
  else .error "Unknown breakpoint type"

/-- String form of a breakpoint type (the string constants of the source). -/
def breakpointTypeStr : BreakpointType → String
  | .line => "line"
  | .call => "call"
  | .ret => "return"
  | .exception => "exception"
  | .conditional => "conditional"
  | .watch => "watch"
  | .internal => "internal"

inductive BreakpointState where
  | enabled | disabled
deriving DecidableEq, Repr

structure EngineBreakPoint where
  id : String
  bpType : BreakpointType
  filename : String
  lineno : Int
  state : BreakpointState
  temporary : Bool
deriving DecidableEq, Repr

inductive EngineStatus where
  | starting | stopping | stopped | running | atBreak
deriving DecidableEq, Repr

inductive EngineReason where
  | ok | error | aborted | exception
deriving DecidableEq, Repr

structure BreakpointError where
  code : Int
  message : String
deriving DecidableEq, Repr

/-- Feature cells (engine feature map, features file). -/
inductive FeatureValue where
  | boolVal (value : Bool) (readOnly : Bool)
  | intVal (value : Int) (readOnly : Bool)
  | strVal (value : String) (readOnly : Bool)
deriving DecidableEq, Repr

/-- Go's `%v` of a bool (used inside panic messages of the Set methods). -/
def boolGoStr (b : Bool) : String := if b then "true" else "false"

/-- The `String()` methods of the feature cells. -/
def featureString : FeatureValue → String
  | .boolVal true _ => "1"
  | .boolVal false _ => "0"
  | .intVal v _ => intToDec v
  | .strVal v _ => v

/-- The `set` methods of the feature cells; `Except.error` is a panic. -/
def featureSetValue : FeatureValue → String → Except String FeatureValue
  | .boolVal v ro, s =>
    if ro then
      .error ("Trying assign " ++ s ++ " to a read only value: " ++ boolGoStr v)
    else if s = "0" then .ok (.boolVal false ro)
    else if s = "1" then .ok (.boolVal true ro)
    else .error ("Trying to assign a non-boolean value " ++ s ++ " to a boolean: " ++ boolGoStr v)
  | .strVal v ro, s =>
    if ro then .error ("Trying assign " ++ s ++ " to a read only value: " ++ v)
    else .ok (.strVal s ro)
  | .intVal v ro, s =>
    if ro then .error ("Trying assign " ++ s ++ " to a read only value: " ++ intToDec v)
    else
      match goAtoi s with
      | none => .error ("strconv.Atoi: parsing " ++ s ++ ": invalid syntax")
      | some n => .ok (.intVal n ro)

/-- `initFeatureMap` (features file), in source order. -/
def initFeatureMap : List (String × FeatureValue) :=
  [("language_supports_threads", .boolVal false true),
   ("language_name", .strVal "PHP" true),
   ("language_version", .strVal "7.0" true),
   ("encoding", .strVal "ISO-8859-1" true),
   ("protocol_version", .intVal 1 true),
   ("supports_async", .boolVal false true),
   ("supports_reverse_debugging", .boolVal true true),
   ("breakpoint_types", .strVal "line" true),
   ("multiple_sessions", .boolVal false false),
   ("max_children", .intVal 64 false),
   ("max_data", .intVal 2048 false),
   ("max_depth", .intVal 1 false),
   ("extended_properties", .boolVal false false),
   ("show_hidden", .boolVal false false)]

/-- Update the value at a key, keeping position (pointer mutation of a Go
map entry). -/
def mapUpdate {α : Type} (m : List (String × α)) (k : String) (v : α) :
    List (String × α) :=
  m.map fun p => if p.1 = k then (k, v) else p

/-- Insert-or-overwrite (Go map assignment `m[k] = v`). -/
def mapInsert {α : Type} (m : List (String × α)) (k : String) (v : α) :
    List (String × α) :=
  (m.filter fun p => !(p.1 == k)) ++ [(k, v)]

/-! ## The gdb/MI interaction monad

The engine talks to gdb; gdb's replies (stop notifications, breakpoint ids,
expression values) are drawn from an oracle, consumed in order with per-kind
counters.  Every `sendGdbCommand` call appends the exact command and
argument strings to a trace.  Outcomes: `ok` (value and state), `panicked`
(a Go panic, recoverable), `fatal` (a `log.Fatal`, process exit). -/

/-- Constants of engine/base.go. -/
def dontbugMasterBp : String := "1"

def dontbugCstepLineNum : Int := 99

def dontbugCstepLineNumTemp : Int := 91

structure SessionCfg where
  levelAr : List Int
deriving Repr

inductive GdbEvalResult where
  | value (v : String)
  | notDone
  | noClass
deriving DecidableEq, Repr

structure GdbOracle where
  stops : Nat → String
  insertOk : Nat → Bool
  insertIds : Nat → String
  evals : Nat → GdbEvalResult

structure MiState where
  bps : List (String × EngineBreakPoint)
  status : EngineStatus
  reason : EngineReason
  featureMap : List (String × FeatureValue)
  sourceMap : List (String × Nat)
  lastSequenceNum : Int
  nStops : Nat
  nInserts : Nat
  nEvals : Nat
  trace : List (String × List String)
deriving DecidableEq, Repr

inductive MiResult (α : Type) where
  | ok (a : α) (s : MiState)
  | panicked (msg : String) (s : MiState)
  | fatal (msg : String)
deriving DecidableEq, Repr

def M (α : Type) : Type := SessionCfg → GdbOracle → MiState → MiResult α

def M.pure {α : Type} (a : α) : M α := fun _ _ s => .ok a s

def M.bind {α β : Type} (x : M α) (f : α → M β) : M β := fun c o s =>
  match x c o s with
  | .ok a s1 => f a c o s1
  | .panicked m s1 => .panicked m s1
  | .fatal m => .fatal m

instance : Monad M where
  pure := M.pure
  bind := M.bind

theorem M.run_pure {α : Type} (a : α) (c : SessionCfg) (o : GdbOracle) (s : MiState) :
    (Pure.pure a : M α) c o s = .ok a s := rfl

theorem M.run_bind {α β : Type} (x : M α) (f : α → M β) (c : SessionCfg) (o : GdbOracle)
    (s : MiState) :
    (x >>= f) c o s =
      match x c o s with
      | .ok a s1 => f a c o s1
      | .panicked m s1 => .panicked m s1
      | .fatal m => .fatal m := rfl

theorem M.bind_run {α β : Type} (x : M α) (f : α → M β) (c : SessionCfg) (o : GdbOracle)
    (s : MiState) :
    M.bind x f c o s =
      match x c o s with
      | .ok a s1 => f a c o s1
      | .panicked m s1 => .panicked m s1
      | .fatal m => .fatal m := rfl

theorem M.pure_run {α : Type} (a : α) (c : SessionCfg) (o : GdbOracle) (s : MiState) :
    M.pure a c o s = .ok a s := rfl

/-- A Go `panic` / `log.Panic` (recoverable by an enclosing `recover`). -/
def panicM {α : Type} (msg : String) : M α := fun _ _ s => .panicked msg s

/-- A Go `log.Fatal` (kills the process). -/
def fatalM {α : Type} (msg : String) : M α := fun _ _ _ => .fatal msg

/-- `sendGdbCommand` for command whose reply is unused: record the exact
command and arguments. -/
def sendGdb (command : String) (args : List String) : M Unit :=
  fun _ _ s => .ok () { s with trace := s.trace ++ [(command, args)] }

/-- Receiving on `breakStopNotify` (one stop notification). -/
def recvStop : M String :=
  fun _ o s => .ok (o.stops s.nStops) { s with nStops := s.nStops + 1 }

def setStatus (st : EngineStatus) : M Unit := fun _ _ s => .ok () { s with status := st }

def getBps : M (List (String × EngineBreakPoint)) := fun _ _ s => .ok s.bps s

def modifyBps (f : List (String × EngineBreakPoint) → List (String × EngineBreakPoint)) :
    M Unit := fun _ _ s => .ok () { s with bps := f s.bps }

def getStatusReason : M (EngineStatus × EngineReason) := fun _ _ s => .ok (s.status, s.reason) s

theorem getBps_run (c : SessionCfg) (o : GdbOracle) (s : MiState) :
    getBps c o s = .ok s.bps s := rfl

theorem getStatusReason_run (c : SessionCfg) (o : GdbOracle) (s : MiState) :
    getStatusReason c o s = .ok (s.status, s.reason) s := rfl

theorem setStatus_run (st : EngineStatus) (c : SessionCfg) (o : GdbOracle) (s : MiState) :
    setStatus st c o s = .ok () { s with status := st } := rfl

/-! ## Registry classifiers and mutators (engine/breakpoints.go) -/

def getEnabledPhpBreakpoints (bps : List (String × EngineBreakPoint)) : List String :=
  (bps.filter fun p =>
    p.2.state == BreakpointState.enabled && !(p.2.bpType == BreakpointType.internal)).map
    Prod.fst

def isEnabledPhpBreakpoint (bps : List (String × EngineBreakPoint)) (id : String) : Bool :=
  bps.any fun p =>
    p.1 == id && p.2.state == BreakpointState.enabled &&
      !(p.2.bpType == BreakpointType.internal)

def isEnabledPhpTemporaryBreakpoint (bps : List (String × EngineBreakPoint))
    (id : String) : Bool :=
  bps.any fun p =>
    p.1 == id && p.2.state == BreakpointState.enabled &&
      !(p.2.bpType == BreakpointType.internal) && p.2.temporary

/-- Set the state of the entries whose key is in `ids`. -/
def setBpStateIn (bps : List (String × EngineBreakPoint)) (ids : List String)
    (st : BreakpointState) : List (String × EngineBreakPoint) :=
  bps.map fun p => if ids.contains p.1 then (p.1, { p.2 with state := st }) else p

def setAllBpState (bps : List (String × EngineBreakPoint)) (st : BreakpointState) :
    List (String × EngineBreakPoint) :=
  bps.map fun p => (p.1, { p.2 with state := st })

def eraseBp (bps : List (String × EngineBreakPoint)) (id : String) :
    List (String × EngineBreakPoint) :=
  bps.filter fun p => !(p.1 == id)

def joinSpace : List String → String
  | [] => ""
  | [x] => x
  | x :: rest => x ++ " " ++ joinSpace rest

/-- `disableGdbBreakpoints`: one `break-disable` with the space-joined list
(only when non-empty), then mark the listed registry entries disabled. -/
def disableGdbBreakpoints (bpList : List String) : M Unit :=
  if bpList.length > 0 then do
    sendGdb "break-disable" [joinSpace bpList]
    modifyBps fun bps => setBpStateIn bps bpList .disabled
  else pure ()

def enableGdbBreakpoints (bpList : List String) : M Unit :=
  if bpList.length > 0 then do
    sendGdb "break-enable" [joinSpace bpList]
    modifyBps fun bps => setBpStateIn bps bpList .enabled
  else pure ()

def disableGdbBreakpoint (bp : String) : M Unit := disableGdbBreakpoints [bp]

def enableGdbBreakpoint (bp : String) : M Unit := enableGdbBreakpoints [bp]

def disableAllGdbBreakpoints : M Unit := do
  sendGdb "break-disable" []
  modifyBps fun bps => setAllBpState bps .disabled

def enableAllGdbBreakpoints : M Unit := do
  sendGdb "break-enable" []
  modifyBps fun bps => setAllBpState bps .enabled

/-- `removeGdbBreakpoint`: `break-delete`, then erase from the registry. -/
def removeGdbBreakpoint (id : String) : M Unit := do
  sendGdb "break-delete" [id]
  modifyBps fun bps => eraseBp bps id

/-! ## Expression probe (engine/base.go, part of the MI client) -/

/-- `xGdbCmdValue`: `data-evaluate-expression`, panicking unless the reply
class is `done`. -/
def xGdbCmdValue (expression : String) : M String := fun _ o s =>
  let s1 := { s with
    trace := s.trace ++ [("data-evaluate-expression", [expression])],
    nEvals := s.nEvals + 1 }
  match o.evals s.nEvals with
  | .value v => .ok v s1
  | .noClass =>
    .panicked ("Could not execute the gdb/mi command: data-evaluate-expression " ++
      expression) s1
  | .notDone =>
    .panicked ("Not completed the gdb/mi command: data-evaluate-expression " ++
      expression) s1

def firstQuoteIdx : List Char → Nat → Option Nat
  | [], _ => none
  | c :: rest, i => if c = '"' then some i else firstQuoteIdx rest (i + 1)

/-- `unquoteGdbStringResult`: undo backslash-quoting of embedded quotes.
(The source would index past the end on a trailing lone backslash; the gdb
replies it is applied to never end in one, and the model keeps such a
backslash verbatim.) -/
def unquoteGdbStringResult (input : String) : String :=
  String.mk (unquoteAux input.toList)
where
  unquoteAux : List Char → List Char
    | [] => []
    | '\\' :: '"' :: rest => '"' :: unquoteAux rest
    | c :: rest => c :: unquoteAux rest

/-- `parseGdbStringResponse`: extract the contents between the first and
last double quote of a gdb value string such as `0xADDR "contents"`. -/
def parseGdbStringResponse (gdbResponse : String) : Except String String :=
  let cs := gdbResponse.toList
  match firstQuoteIdx cs 0, (firstQuoteIdx cs.reverse 0).map (fun j => cs.length - 1 - j) with
  | some first, some last =>
    if first = last then
      .error ("Improper gdb data-evaluate-expression string response to: " ++ gdbResponse)
    else
      .ok (unquoteGdbStringResult (String.mk ((cs.drop (first + 1)).take (last - (first + 1)))))
  | _, _ =>
    .error ("Improper gdb data-evaluate-expression string response to: " ++ gdbResponse)

def xSlashSgdb (expression : String) : M String := do
  let resultString ← xGdbCmdValue expression
  match parseGdbStringResponse resultString with
  | .error e => panicM e
  | .ok v => pure v

def xSlashDgdb (expression : String) : M Int := do
  let resultString ← xGdbCmdValue expression
  match goAtoi resultString with
  | none => panicM ("strconv.Atoi: parsing " ++ resultString ++ ": invalid syntax")
  | some n => pure n

/-! ## Continue primitive and breakpoint insertion -/

/-- `continueExecution` (engine/base.go): issue the continue, await one stop
notification, classify it; a fired enabled temporary php breakpoint is
consumed from the registry. -/
def continueExecution (reverse : Bool) : M (String × Bool) := do
  setStatus .running
  if reverse then sendGdb "exec-continue" ["--reverse"]
  else sendGdb "exec-continue" []
  let breakId ← recvStop
  setStatus .atBreak
  let bps ← getBps
  if isEnabledPhpTemporaryBreakpoint bps breakId then do
    modifyBps fun b => eraseBp b breakId
    pure (breakId, true)
  else if isEnabledPhpBreakpoint bps breakId then
    pure (breakId, true)
  else
    pure (breakId, false)

/-- `gotoMasterBpLocation`: enable master, continue, disable master. -/
def gotoMasterBpLocation (reverse : Bool) : M (String × Bool) := do
  enableGdbBreakpoint dontbugMasterBp
  let r ← continueExecution reverse
  disableGdbBreakpoint dontbugMasterBp
  pure r

/-- `setPhpStackLevelBreakpointInGdb` (engine/breakpoints.go): breakpoint on
the instrumentation line of a stack level; no registry entry.  The
`es.LevelAr[level]` access panics (Go runtime) when out of range; a reply
class other than `done` is a `log.Fatal`. -/
def setPhpStackLevelBreakpointInGdb (level : Int) : M String := fun c o s =>
  if level < 0 then .panicked "runtime error: index out of range" s
  else
    match c.levelAr.get? level.toNat with
    | none => .panicked "runtime error: index out of range" s
    | some line =>
      let s1 := { s with
        trace := s.trace ++
          [("break-insert", ["-f --source dontbug_break.c --line " ++ intToDec line])],
        nInserts := s.nInserts + 1 }
      if o.insertOk s.nInserts then .ok (o.insertIds s.nInserts) s1
      else .fatal "Breakpoint was not set successfully"

/-- The no-such-file warning of `setPhpBreakpointInGdb` (single quotes around
"dontbug generate" elided). -/
def noSuchFileWarning (phpFilename : String) : String :=
  "dontbug: Not able to find " ++ phpFilename ++
    " to add a breakpoint. Either the IDE is trying to set a breakpoint for a file from a different project (which is OK) or you need to run dontbug generate specific to this project"

/-- `setPhpBreakpointInGdb` (engine/breakpoints.go): look the file up in the
location index, insert a conditional breakpoint on its instrumentation line,
record a `line`-kind registry entry under the gdb-assigned id. -/
def setPhpBreakpointInGdb (phpFilename : String) (phpLineno : Int)
    (disabled temporary : Bool) : M (Except BreakpointError String) := fun _ o s =>
  match alistLookup s.sourceMap phpFilename with
  | none => .ok (.error ⟨200, noSuchFileWarning phpFilename⟩) s
  | some internalLineno =>
    let cmd := "break-insert " ++ (if temporary then "-t " else "") ++
      (if disabled then "-d " else "") ++ "-f -c \"lineno == " ++ intToDec phpLineno ++
      "\" --source dontbug_break.c --line " ++ natToDec internalLineno
    let s1 := { s with trace := s.trace ++ [(cmd, [])], nInserts := s.nInserts + 1 }
    if o.insertOk s.nInserts = false then
      .ok (.error ⟨200,
        "Could not set breakpoint in gdb. Something is probably wrong with breakpoint parameters"⟩) s1
    else
      let id := o.insertIds s.nInserts
      match alistLookup s.bps id with
      | some _ => .fatal ("breakpoint number returned by gdb not unique:" ++ id)
      | none =>
        .ok (.ok id) { s1 with
          bps := s.bps ++ [(id,
            { id := id, bpType := .line, filename := phpFilename, lineno := phpLineno,
              state := if disabled then .disabled else .enabled,
              temporary := temporary })] }

/-- The registry created by `startGdbAndInitDebugEngineState`
(engine/replay.go): exactly the master stepping breakpoint, reserved id "1",
on the step line of dontbug.c, initially disabled, internal, not temporary. -/
def initBreakpoints : List (String × EngineBreakPoint) :=
  [("1", { id := "1", bpType := .internal, filename := "dontbug.c",
           lineno := dontbugCstepLineNum, state := .disabled, temporary := false })]

/-! ## DBGp commands, responses, handlers

Each `DbgpResponse` constructor stands for `fmt.Sprintf` of one of the fixed
XML format strings (the g-prefixed response formats file), applied to the
listed arguments in order. -/

structure DbgpCmd where
  command : String
  fullCommand : String
  options : List (String × String)
  seqNum : Int
deriving DecidableEq, Repr

inductive DbgpResponse where
  | featureSet (seq : Int) (feature : String) (success : Int)
  | featureGet (seq : Int) (feature : String) (supported : Int) (value : String)
  | statusResp (seq : Int) (status : EngineStatus) (reason : EngineReason)
  | breakpointSetLine (seq : Int) (status : String) (id : String)
  | errorResp (command : String) (seq : Int) (code : Int) (message : String)
  | breakpointRemoveOrUpdate (command : String) (seq : Int)
  | stepIntoBreak (seq : Int) (filename : String) (lineno : Int)
  | runOrStepBreak (command : String) (seq : Int) (filename : String) (lineno : Int)
  | stdFd (seq : Int) (fdName : String)
  | propertySet (seq : Int)
  | diversion (xml : String)
deriving DecidableEq, Repr

def strDrop1 (s : String) : String := String.mk (s.toList.drop 1)

/-- The flag-pairing loop of `parseCommand`: fields at even offsets are
flags (leading char stripped), the following field is the value ("" when
missing). -/
def buildFlags : List String → List (String × String) → List (String × String)
  | [], m => m
  | [v], m => mapInsert m (strDrop1 (goTrim v)) ""
  | v :: w :: rest, m => buildFlags rest (mapInsert m (strDrop1 (goTrim v)) (goTrim w))

/-- `parseCommand` (engine/base.go): fields, flag pairs, mandatory sequence
number `-i`.  `Except.error` is a panic (`log.Panic` / `panicIf`); an empty
command would index out of range. -/
def parseCommand (fullCommand : String) : Except String DbgpCmd :=
  match goFields fullCommand with
  | [] => .error "runtime error: index out of range"
  | command :: rest =>
    let flags := buildFlags rest []
    match alistLookup flags "i" with
    | none => .error "Could not find sequence number in command"
    | some seqStr =>
      match goAtoi seqStr with
      | none => .error ("strconv.Atoi: parsing " ++ seqStr ++ ": invalid syntax")
      | some seqInt => .ok ⟨command, fullCommand, flags, seqInt⟩

def handlePropertySet (dCmd : DbgpCmd) : M DbgpResponse :=
  pure (.propertySet dCmd.seqNum)

def handleStdFd (dCmd : DbgpCmd) (fdName : String) : M DbgpResponse :=
  pure (.stdFd dCmd.seqNum fdName)

def handleStatus (dCmd : DbgpCmd) : M DbgpResponse := do
  let (st, r) ← getStatusReason
  pure (.statusResp dCmd.seqNum st r)

def handleStop (dCmd : DbgpCmd) : M DbgpResponse := do
  setStatus .stopped
  let (st, r) ← getStatusReason
  pure (.statusResp dCmd.seqNum st r)

/-- `diversionSessionCmd`: ask the replayed process to render the DBGp
command via the in-process helper. -/
def diversionSessionCmd (command : String) : M String :=
  xSlashSgdb ("dontbug_xdebug_cmd(\"" ++ command ++ "\")")

/-- `recoverableDiversionSessionCmd` (engine/other_commands.go): same, but a
panic is recovered at the deferred handler; the function then returns the
zero-value string. -/
def recoverableDiversionSessionCmd (command : String) : M String := fun c o s =>
  match diversionSessionCmd command c o s with
  | .ok r s1 => .ok r s1
  | .panicked _ s1 => .ok "" s1
  | .fatal m => .fatal m

def handleInDiversionSessionStandard (dCmd : DbgpCmd) : M DbgpResponse := do
  let r ← diversionSessionCmd dCmd.fullCommand
  pure (.diversion r)

/-- `handleInDiversionSessionWithNoGdbBpts`: disable everything, divert,
re-enable the remembered user breakpoints.  No recovery here. -/
def handleInDiversionSessionWithNoGdbBpts (dCmd : DbgpCmd) : M DbgpResponse := do
  let bps ← getBps
  let bpList := getEnabledPhpBreakpoints bps
  disableAllGdbBreakpoints
  let r ← diversionSessionCmd dCmd.fullCommand
  enableGdbBreakpoints bpList
  pure (.diversion r)

/-- `handleRun` (engine/other_commands.go). -/
def handleRun (dCmd : DbgpCmd) (reverse : Bool) : M DbgpResponse := do
  if reverse then do
    let bps ← getBps
    let bpList := getEnabledPhpBreakpoints bps
    disableGdbBreakpoints bpList
    let _ ← gotoMasterBpLocation true
    enableGdbBreakpoints bpList
  else pure ()
  let (_, userBreakPointHit) ← continueExecution reverse
  if userBreakPointHit then do
    let bps ← getBps
    let bpList := getEnabledPhpBreakpoints bps
    disableGdbBreakpoints bpList
    if !reverse then do
      let _ ← gotoMasterBpLocation false
      pure ()
    else do
      let currentPhpStackLevel ← xSlashDgdb "level"
      let id ← setPhpStackLevelBreakpointInGdb currentPhpStackLevel
      let _ ← continueExecution true
      removeGdbBreakpoint id
      let _ ← gotoMasterBpLocation false
      pure ()
    let filename ← xSlashSgdb "filename"
    let phpLineno ← xSlashDgdb "lineno"
    enableGdbBreakpoints bpList
    pure (.runOrStepBreak "run" dCmd.seqNum filename phpLineno)
  else
    panicM "Unimplemented program end handling"

/-- `handleStepInto` (engine/step.go). -/
def handleStepInto (dCmd : DbgpCmd) (reverse : Bool) : M DbgpResponse := do
  let _ ← gotoMasterBpLocation reverse
  let filename ← xSlashSgdb "filename"
  let lineno ← xSlashDgdb "lineno"
  pure (.stepIntoBreak dCmd.seqNum filename lineno)

/-- `handleStepOverOrOut` (engine/step.go). -/
def handleStepOverOrOut (dCmd : DbgpCmd) (reverse stepOut : Bool) : M DbgpResponse := do
  let command := if stepOut then "step_out" else "step_over"
  let currentPhpStackLevel ← xSlashDgdb "level"
  let levelLimit :=
    if stepOut && currentPhpStackLevel > 0 then currentPhpStackLevel - 1
    else currentPhpStackLevel
  let id ← setPhpStackLevelBreakpointInGdb levelLimit
  let (_, hit) ← continueExecution reverse
  if !reverse then do
    removeGdbBreakpoint id
    let _ ← gotoMasterBpLocation false
    pure ()
  else do
    if hit then do
      removeGdbBreakpoint id
      let levelLimit2 ← xSlashDgdb "level"
      let bps ← getBps
      let bpList := getEnabledPhpBreakpoints bps
      disableGdbBreakpoints bpList
      let id2 ← setPhpStackLevelBreakpointInGdb levelLimit2
      let _ ← continueExecution true
      removeGdbBreakpoint id2
      enableGdbBreakpoints bpList
    else do
      let bps ← getBps
      let bpList := getEnabledPhpBreakpoints bps
      disableGdbBreakpoints bpList
      let _ ← continueExecution true
      enableGdbBreakpoints bpList
      removeGdbBreakpoint id
    let _ ← gotoMasterBpLocation false
    pure ()
  let filename ← xSlashSgdb "filename"
  let phpLineno ← xSlashDgdb "lineno"
  pure (.runOrStepBreak command dCmd.seqNum filename phpLineno)

/-- `handleFeatureSet` (features file): panics on a missing option, an
unknown feature, or a rejected write. -/
def handleFeatureSet (dCmd : DbgpCmd) : M DbgpResponse :=
  match alistLookup dCmd.options "n" with
  | none => panicM "Please provide -n option in feature_set"
  | some n =>
    match alistLookup dCmd.options "v" with
    | none => panicM "Not provided -v option in feature_set"
    | some v => fun _ _ s =>
      match alistLookup s.featureMap n with
      | none => .panicked ("Unknown option: " ++ n) s
      | some featureVal =>
        match featureSetValue featureVal v with
        | .error msg => .panicked msg s
        | .ok newVal =>
          .ok (.featureSet dCmd.seqNum n 1) { s with featureMap := mapUpdate s.featureMap n newVal }

/-- `handleFeatureGet` (features file): supported=0 and a nil value
(`%v` of a nil interface renders `<nil>`) for an unknown feature. -/
def handleFeatureGet (dCmd : DbgpCmd) : M DbgpResponse :=
  match alistLookup dCmd.options "n" with
  | none => panicM "Please provide -n option in feature_get"
  | some n => fun _ _ s =>
    match alistLookup s.featureMap n with
    | some f => .ok (.featureGet dCmd.seqNum n 1 (featureString f)) s
    | none => .ok (.featureGet dCmd.seqNum n 0 "<nil>") s

/-- `handleBreakpointRemove` (engine/breakpoints.go). -/
def handleBreakpointRemove (dCmd : DbgpCmd) : M DbgpResponse :=
  match alistLookup dCmd.options "d" with
  | none => fatalM "Please provide breakpoint id to remove"
  | some d => do
    removeGdbBreakpoint d
    pure (.breakpointRemoveOrUpdate "breakpoint_remove" dCmd.seqNum)

/-- `handleBreakpointUpdate` (engine/breakpoints.go): only enable/disable
transitions; everything else is fatal. -/
def handleBreakpointUpdate (dCmd : DbgpCmd) : M DbgpResponse :=
  match alistLookup dCmd.options "d" with
  | none => fatalM "Please provide breakpoint number for breakpoint_update"
  | some d =>
    if (alistLookup dCmd.options "n").isSome then
      fatalM "Line number updates are currently unsupported in breakpoint_update"
    else if (alistLookup dCmd.options "h").isSome then
      fatalM "Hit condition/value update is currently not supported in breakpoint_update"
    else if (alistLookup dCmd.options "o").isSome then
      fatalM "Hit condition/value is currently not supported in breakpoint_update"
    else
      match alistLookup dCmd.options "s" with
      | none => fatalM "Please provide new breakpoint status in breakpoint_update"
      | some st =>
        if st = "disabled" then do
          disableGdbBreakpoint d
          pure (.breakpointRemoveOrUpdate "breakpoint_update" dCmd.seqNum)
        else if st = "enabled" then do
          enableGdbBreakpoint d
          pure (.breakpointRemoveOrUpdate "breakpoint_update" dCmd.seqNum)
        else fatalM ("Unknown breakpoint status " ++ st ++ " for breakpoint_update")

/-- Continuation of `handleBreakpointSetLineBreakpoint` after the
file/status options are read. -/
def handleBreakpointSetLineAux (dCmd : DbgpCmd) (phpFilename status : String)
    (disabled : Bool) : M DbgpResponse :=
  match alistLookup dCmd.options "n" with
  | none => fatalM "Please provide line number option -n in breakpoint_set"
  | some phpLinenoString =>
    let temporary := alistLookup dCmd.options "r" == some "1"
    if (alistLookup dCmd.options "h").isSome then
      pure (.errorResp "breakpoint_set" dCmd.seqNum 201
        "Hit condition/value is currently not supported")
    else if (alistLookup dCmd.options "o").isSome then
      pure (.errorResp "breakpoint_set" dCmd.seqNum 201
        "Hit condition/value is currently not supported")
    else
      match goAtoi phpLinenoString with
      | none => fatalM ("strconv.Atoi: parsing " ++ phpLinenoString ++ ": invalid syntax")
      | some phpLineno => do
        let res ← setPhpBreakpointInGdb phpFilename phpLineno disabled temporary
        match res with
        | .error be => pure (.errorResp "breakpoint_set" dCmd.seqNum be.code be.message)
        | .ok id => pure (.breakpointSetLine dCmd.seqNum status id)

/-- `handleBreakpointSetLineBreakpoint` (engine/breakpoints.go). -/
def handleBreakpointSetLineBreakpoint (dCmd : DbgpCmd) : M DbgpResponse :=
  match alistLookup dCmd.options "f" with
  | none => fatalM "Please provide filename option -f in breakpoint_set"
  | some phpFilename =>
    match alistLookup dCmd.options "s" with
    | some st =>
      if st = "disabled" then handleBreakpointSetLineAux dCmd phpFilename st true
      else if st = "enabled" then handleBreakpointSetLineAux dCmd phpFilename st false
      else fatalM ("Unknown breakpoint status " ++ st)
    | none => handleBreakpointSetLineAux dCmd phpFilename "enabled" false

/-- `handleBreakpointSet` (engine/breakpoints.go): only line breakpoints. -/
def handleBreakpointSet (dCmd : DbgpCmd) : M DbgpResponse :=
  match alistLookup dCmd.options "t" with
  | none => fatalM "Please provide breakpoint type option -t in breakpoint_set"
  | some t =>
    match stringToBreakpointType t with
    | .error e => fatalM e
    | .ok tt =>
      if tt = .line then handleBreakpointSetLineBreakpoint dCmd
      else
        pure (.errorResp "breakpoint_set" dCmd.seqNum 201
          ("Breakpoint type " ++ breakpointTypeStr tt ++ " is not supported"))

/-- The dispatch switch of `dispatchIdeRequest` (engine/replay.go), after
the sequence-number bookkeeping.  Note there is no `feature_get` case: an
incoming `feature_get` lands in the default arm, which nils the source map
and panics. -/
def dispatchSwitch (dCmd : DbgpCmd) (reverse : Bool) (command : String) : M DbgpResponse :=
  if dCmd.command = "feature_set" then handleFeatureSet dCmd
  else if dCmd.command = "status" then handleStatus dCmd
  else if dCmd.command = "breakpoint_set" then handleBreakpointSet dCmd
  else if dCmd.command = "breakpoint_remove" then handleBreakpointRemove dCmd
  else if dCmd.command = "breakpoint_update" then handleBreakpointUpdate dCmd
  else if dCmd.command = "step_into" then handleStepInto dCmd reverse
  else if dCmd.command = "step_over" then handleStepOverOrOut dCmd reverse false
  else if dCmd.command = "step_out" then handleStepOverOrOut dCmd reverse true
  else if dCmd.command = "eval" then handleInDiversionSessionWithNoGdbBpts dCmd
  else if dCmd.command = "stdout" then handleStdFd dCmd "stdout"
  else if dCmd.command = "stdin" then handleStdFd dCmd "stdin"
  else if dCmd.command = "stderr" then handleStdFd dCmd "stderr"
  else if dCmd.command = "property_set" then handlePropertySet dCmd
  else if dCmd.command = "property_get" then handleInDiversionSessionWithNoGdbBpts dCmd
  else if dCmd.command = "context_get" then handleInDiversionSessionWithNoGdbBpts dCmd
  else if dCmd.command = "run" then handleRun dCmd reverse
  else if dCmd.command = "stop" then handleStop dCmd
  else if dCmd.command = "stack_get" then handleInDiversionSessionStandard dCmd
  else if dCmd.command = "stack_depth" then handleInDiversionSessionStandard dCmd
  else if dCmd.command = "context_names" then handleInDiversionSessionStandard dCmd
  else if dCmd.command = "typemap_get" then handleInDiversionSessionStandard dCmd
  else if dCmd.command = "source" then handleInDiversionSessionStandard dCmd
  else if dCmd.command = "property_value" then handleInDiversionSessionStandard dCmd
  else fun _ _ s =>
    .panicked ("Unimplemented command:" ++ command) { s with sourceMap := [] }

/-- `dispatchIdeRequest` (engine/replay.go): parse, reject a sequence number
strictly below the last one (a panic), record the sequence number, switch. -/
def dispatchIdeRequest (command : String) (reverse : Bool) : M DbgpResponse := fun c o s =>
  match parseCommand command with
  | .error msg => .panicked msg s
  | .ok dCmd =>
    if s.lastSequenceNum > dCmd.seqNum then
      .panicked ("Sequence number" ++ intToDec dCmd.seqNum ++ "has already been seen") s
    else
      dispatchSwitch dCmd reverse command c o { s with lastSequenceNum := dCmd.seqNum }

inductive LoopEnd where
  | clientEOF
  | panicked (msg : String)
  | fatality (msg : String)
deriving DecidableEq, Repr

/-- The request-serving goroutine of `debuggerIdeLoop` (engine/replay.go)
over a list of incoming requests: loop while the status is not `stopped`,
dispatch, write the response.  A panic is recovered at the goroutine edge:
no response is written for the panicking request, the loop ends and the IDE
connection is shut down (the remaining requests are never read). -/
def ideLoop (reverse : Bool) : List String → SessionCfg → GdbOracle → MiState →
    List DbgpResponse × LoopEnd
  | [], _, _, _ => ([], .clientEOF)
  | req :: rest, c, o, s =>
    if s.status = .stopped then ([], .clientEOF)
    else
      match dispatchIdeRequest req reverse c o s with
      | .ok resp s1 =>
        let (rs, e) := ideLoop reverse rest c o s1
        (resp :: rs, e)
      | .panicked m _ => ([], .panicked m)
      | .fatal m => ([], .fatality m)

/-! ## Result projections and closed-form run lemmas -/

def MiResult.isOk {α : Type} : MiResult α → Bool
  | .ok _ _ => true
  | _ => false

def MiResult.isPanicked {α : Type} : MiResult α → Bool
  | .panicked _ _ => true
  | _ => false

/-- The continue command recorded for a direction. -/
def contCmd (reverse : Bool) : String × List String :=
  ("exec-continue", if reverse then ["--reverse"] else [])

theorem continueExecution_run (reverse : Bool) (c : SessionCfg) (o : GdbOracle)
    (s : MiState) :
    continueExecution reverse c o s =
      (let breakId := o.stops s.nStops
       let s1 : MiState := { s with
         status := .atBreak, nStops := s.nStops + 1,
         trace := s.trace ++ [contCmd reverse] }
       if isEnabledPhpTemporaryBreakpoint s.bps breakId then
         .ok (breakId, true) { s1 with bps := eraseBp s.bps breakId }
       else if isEnabledPhpBreakpoint s.bps breakId then .ok (breakId, true) s1
       else .ok (breakId, false) s1) := by
  cases reverse <;>
    simp only [continueExecution, contCmd, Bind.bind, M.bind, M.pure, sendGdb, recvStop,
      setStatus, getBps, modifyBps, panicM, if_true, if_false, Bool.false_eq_true,
      ite_false, ite_true] <;>
    split <;> rename_i h1 <;> first
      | rfl
      | (split <;> rfl)

theorem disableGdbBreakpoints_run (bpList : List String) (c : SessionCfg) (o : GdbOracle)
    (s : MiState) :
    disableGdbBreakpoints bpList c o s =
      (if bpList.length > 0 then
        .ok () { s with bps := setBpStateIn s.bps bpList .disabled,
                        trace := s.trace ++ [("break-disable", [joinSpace bpList])] }
      else .ok () s) := by
  simp only [disableGdbBreakpoints, Bind.bind, M.bind, M.pure, sendGdb, modifyBps]
  split <;> rfl

theorem enableGdbBreakpoints_run (bpList : List String) (c : SessionCfg) (o : GdbOracle)
    (s : MiState) :
    enableGdbBreakpoints bpList c o s =
      (if bpList.length > 0 then
        .ok () { s with bps := setBpStateIn s.bps bpList .enabled,
                        trace := s.trace ++ [("break-enable", [joinSpace bpList])] }
      else .ok () s) := by
  simp only [enableGdbBreakpoints, Bind.bind, M.bind, M.pure, sendGdb, modifyBps]
  split <;> rfl

theorem removeGdbBreakpoint_run (id : String) (c : SessionCfg) (o : GdbOracle)
    (s : MiState) :
    removeGdbBreakpoint id c o s =
      .ok () { s with bps := eraseBp s.bps id,
                      trace := s.trace ++ [("break-delete", [id])] } := rfl

theorem disableAllGdbBreakpoints_run (c : SessionCfg) (o : GdbOracle) (s : MiState) :
    disableAllGdbBreakpoints c o s =
      .ok () { s with bps := setAllBpState s.bps .disabled,
                      trace := s.trace ++ [("break-disable", [])] } := rfl

theorem gotoMasterBpLocation_run (reverse : Bool) (c : SessionCfg) (o : GdbOracle)
    (s : MiState) :
    gotoMasterBpLocation reverse c o s =
      (let bps1 := setBpStateIn s.bps [dontbugMasterBp] .enabled
       let breakId := o.stops s.nStops
       let t1 := s.trace ++ [("break-enable", ["1"]), contCmd reverse]
       let bps2 :=
         if isEnabledPhpTemporaryBreakpoint bps1 breakId then eraseBp bps1 breakId
         else bps1
       let hit := isEnabledPhpTemporaryBreakpoint bps1 breakId ||
         isEnabledPhpBreakpoint bps1 breakId
       .ok (breakId, hit)
         { s with
           status := .atBreak, nStops := s.nStops + 1,
           bps := setBpStateIn bps2 [dontbugMasterBp] .disabled,
           trace := t1 ++ [("break-disable", ["1"])] }) := by
  by_cases h1 : isEnabledPhpTemporaryBreakpoint (setBpStateIn s.bps ["1"]
    .enabled) (o.stops s.nStops) <;>
  by_cases h2 : isEnabledPhpBreakpoint (setBpStateIn s.bps ["1"] .enabled)
    (o.stops s.nStops) <;>
  cases reverse <;>
  simp [gotoMasterBpLocation, enableGdbBreakpoint, enableGdbBreakpoints,
    disableGdbBreakpoint, disableGdbBreakpoints, continueExecution, Bind.bind, M.bind,
    Pure.pure, M.pure, sendGdb, recvStop, setStatus, getBps, modifyBps, joinSpace,
    contCmd, dontbugMasterBp, h1, h2]

theorem xSlashSgdb_run_ok (expression : String) (c : SessionCfg) (o : GdbOracle)
    (s : MiState) (raw v : String) (hev : o.evals s.nEvals = .value raw)
    (hp : parseGdbStringResponse raw = .ok v) :
    xSlashSgdb expression c o s =
      .ok v { s with trace := s.trace ++ [("data-evaluate-expression", [expression])],
                     nEvals := s.nEvals + 1 } := by
  simp only [xSlashSgdb, Bind.bind, M.bind, xGdbCmdValue, hev, hp, Pure.pure, M.pure]

theorem xSlashDgdb_run_ok (expression : String) (c : SessionCfg) (o : GdbOracle)
    (s : MiState) (raw : String) (n : Int) (hev : o.evals s.nEvals = .value raw)
    (hp : goAtoi raw = some n) :
    xSlashDgdb expression c o s =
      .ok n { s with trace := s.trace ++ [("data-evaluate-expression", [expression])],
                     nEvals := s.nEvals + 1 } := by
  simp only [xSlashDgdb, Bind.bind, M.bind, xGdbCmdValue, hev, hp, Pure.pure, M.pure]

theorem xSlashSgdb_run_panic (expression : String) (c : SessionCfg) (o : GdbOracle)
    (s : MiState) (hev : o.evals s.nEvals = .notDone) :
    xSlashSgdb expression c o s =
      .panicked ("Not completed the gdb/mi command: data-evaluate-expression " ++ expression)
        { s with trace := s.trace ++ [("data-evaluate-expression", [expression])],
                 nEvals := s.nEvals + 1 } := by
  simp only [xSlashSgdb, Bind.bind, M.bind, xGdbCmdValue, hev]

theorem setPhpStackLevelBreakpointInGdb_run_ok (level : Int) (c : SessionCfg)
    (o : GdbOracle) (s : MiState) (line : Int) (hnn : ¬ level < 0)
    (hline : c.levelAr.get? level.toNat = some line)
    (hok : o.insertOk s.nInserts = true) :
    setPhpStackLevelBreakpointInGdb level c o s =
      .ok (o.insertIds s.nInserts)
        { s with
          trace := s.trace ++
            [("break-insert", ["-f --source dontbug_break.c --line " ++ intToDec line])],
          nInserts := s.nInserts + 1 } := by
  simp only [setPhpStackLevelBreakpointInGdb, hnn, if_false, hline, hok, if_true]

/-! ## Classification lemmas -/

theorem strContains_of_mem (l : List String) (a : String) (h : a ∈ l) :
    l.contains a = true := List.elem_eq_true_of_mem h

theorem strContains_eq_false (l : List String) (a : String) (h : a ∉ l) :
    l.contains a = false := by
  cases hb : l.contains a
  · rfl
  · exact absurd (List.mem_of_elem_eq_true hb) h

theorem isEnabledPhpBreakpoint_iff (bps : List (String × EngineBreakPoint)) (id : String) :
    isEnabledPhpBreakpoint bps id = true ↔
      ∃ p ∈ bps, p.1 = id ∧ p.2.state = .enabled ∧ p.2.bpType ≠ .internal := by
  simp only [isEnabledPhpBreakpoint, List.any_eq_true, Bool.and_eq_true, beq_iff_eq,
    Bool.not_eq_true', beq_eq_false_iff_ne]
  tauto

theorem isEnabledPhpTemporaryBreakpoint_iff (bps : List (String × EngineBreakPoint))
    (id : String) :
    isEnabledPhpTemporaryBreakpoint bps id = true ↔
      ∃ p ∈ bps, p.1 = id ∧ p.2.state = .enabled ∧ p.2.bpType ≠ .internal ∧
        p.2.temporary = true := by
  simp only [isEnabledPhpTemporaryBreakpoint, List.any_eq_true, Bool.and_eq_true,
    beq_iff_eq, Bool.not_eq_true', beq_eq_false_iff_ne]
  tauto

theorem mem_getEnabledPhpBreakpoints (bps : List (String × EngineBreakPoint))
    (a : String) :
    a ∈ getEnabledPhpBreakpoints bps ↔
      ∃ p ∈ bps, p.1 = a ∧ p.2.state = .enabled ∧ p.2.bpType ≠ .internal := by
  simp only [getEnabledPhpBreakpoints, List.mem_map, List.mem_filter, Bool.and_eq_true,
    beq_iff_eq, Bool.not_eq_true', beq_eq_false_iff_ne]
  constructor
  · rintro ⟨p, ⟨hmem, hst, hty⟩, heq⟩
    exact ⟨p, hmem, heq, hst, hty⟩
  · rintro ⟨p, hmem, heq, hst, hty⟩
    exact ⟨p, ⟨hmem, hst, hty⟩, heq⟩

theorem mem_setBpStateIn (bps : List (String × EngineBreakPoint)) (ids : List String)
    (st : BreakpointState) (p : String × EngineBreakPoint) :
    p ∈ setBpStateIn bps ids st ↔
      ∃ q ∈ bps, p = if ids.contains q.1 then (q.1, { q.2 with state := st }) else q := by
  simp only [setBpStateIn, List.mem_map]
  constructor
  · rintro ⟨q, hq, heq⟩
    exact ⟨q, hq, heq.symm⟩
  · rintro ⟨q, hq, heq⟩
    exact ⟨q, hq, heq.symm⟩

/-- After disabling every currently enabled non-internal breakpoint, every
enabled registry entry is internal. -/
theorem enabled_internal_after_disable (bps : List (String × EngineBreakPoint)) :
    ∀ p ∈ setBpStateIn bps (getEnabledPhpBreakpoints bps) .disabled,
      p.2.state = .enabled → p.2.bpType = .internal := by
  intro p hp hen
  rw [mem_setBpStateIn] at hp
  obtain ⟨q, hq, hpq⟩ := hp
  by_cases hc : (getEnabledPhpBreakpoints bps).contains q.1
  · rw [if_pos hc] at hpq
    rw [hpq] at hen
    cases hen
  · rw [if_neg hc] at hpq
    subst hpq
    by_cases hty : p.2.bpType = .internal
    · exact hty
    · exfalso
      apply hc
      exact strContains_of_mem _ _
        ((mem_getEnabledPhpBreakpoints bps p.1).mpr ⟨p, hq, rfl, hen, hty⟩)

/-- If every enabled entry is internal, no id classifies as a (temporary)
php breakpoint hit. -/
theorem noPhpHit_of_enabled_internal (bps : List (String × EngineBreakPoint))
    (h : ∀ p ∈ bps, p.2.state = .enabled → p.2.bpType = .internal) (id : String) :
    isEnabledPhpBreakpoint bps id = false ∧
      isEnabledPhpTemporaryBreakpoint bps id = false := by
  constructor
  · rw [← Bool.not_eq_true, isEnabledPhpBreakpoint_iff]
    rintro ⟨p, hp, -, hen, hty⟩
    exact hty (h p hp hen)
  · rw [← Bool.not_eq_true, isEnabledPhpTemporaryBreakpoint_iff]
    rintro ⟨p, hp, -, hen, hty, -⟩
    exact hty (h p hp hen)

/-- `setBpStateIn` keeps keys and types. -/
theorem masterType_preserved_set (bps : List (String × EngineBreakPoint))
    (ids : List String) (st : BreakpointState)
    (h : ∀ p ∈ bps, p.1 = "1" → p.2.bpType = .internal) :
    ∀ p ∈ setBpStateIn bps ids st, p.1 = "1" → p.2.bpType = .internal := by
  intro p hp hk
  rw [mem_setBpStateIn] at hp
  obtain ⟨q, hq, hpq⟩ := hp
  by_cases hc : ids.contains q.1
  · rw [if_pos hc] at hpq
    rw [hpq] at hk ⊢
    exact h q hq hk
  · rw [if_neg hc] at hpq
    subst hpq
    exact h p hq hk

/-- `eraseBp` keeps keys and types of the remaining entries. -/
theorem masterType_preserved_erase (bps : List (String × EngineBreakPoint))
    (id : String) (h : ∀ p ∈ bps, p.1 = "1" → p.2.bpType = .internal) :
    ∀ p ∈ eraseBp bps id, p.1 = "1" → p.2.bpType = .internal := by
  intro p hp hk
  simp only [eraseBp, List.mem_filter] at hp
  exact h p hp.1 hk

/-- After the reverse-run prologue state transform (disable user bps, enable
master), every enabled entry is internal when entry "1" is internal. -/
theorem enabled_internal_after_masterenable (bps : List (String × EngineBreakPoint))
    (hM : ∀ p ∈ bps, p.1 = "1" → p.2.bpType = .internal) :
    ∀ p ∈ setBpStateIn (setBpStateIn bps (getEnabledPhpBreakpoints bps) .disabled)
        ["1"] .enabled, p.2.state = .enabled → p.2.bpType = .internal := by
  intro p hp hen
  rw [mem_setBpStateIn] at hp
  obtain ⟨q, hq, hpq⟩ := hp
  by_cases hck : q.1 = "1"
  · have hc : (["1"] : List String).contains q.1 = true :=
      strContains_of_mem _ _ (by simp [hck])
    rw [if_pos hc] at hpq
    have hint := masterType_preserved_set bps (getEnabledPhpBreakpoints bps) .disabled
      hM q hq hck
    rw [hpq]
    exact hint
  · have hc : (["1"] : List String).contains q.1 = false :=
      strContains_eq_false _ _ (by simp [hck])
    rw [if_neg (by rw [hc]; exact Bool.false_ne_true)] at hpq
    subst hpq
    exact enabled_internal_after_disable bps p hq hen

theorem alistLookup_eraseBp (bps : List (String × EngineBreakPoint)) (id : String) :
    alistLookup (eraseBp bps id) id = none := by
  induction bps with
  | nil => rfl
  | cons p rest ih =>
    by_cases h : p.1 = id
    · simp only [eraseBp, List.filter_cons] at ih ⊢
      rw [show (!(p.1 == id)) = false by simp [h]]
      exact ih
    · simp only [eraseBp, List.filter_cons] at ih ⊢
      rw [show (!(p.1 == id)) = true by simp [h]]
      simp only [alistLookup, h, if_false]
      exact ih

theorem mem_eraseBp_of_ne (bps : List (String × EngineBreakPoint)) (id : String)
    (q : String × EngineBreakPoint) (hq : q ∈ bps) (hne : q.1 ≠ id) :
    q ∈ eraseBp bps id := by
  simp only [eraseBp, List.mem_filter]
  exact ⟨hq, by simp [hne]⟩

/-- C2: the continue primitive issues one machine-debugger continue in the
requested direction, consumes exactly one stop notification, and reports a
user hit exactly when the fired id has an enabled, non-internal registry
entry; a fired enabled temporary entry is deleted before returning, and in
every other case the registry is unchanged. -/
theorem c2_continue_classification (reverse : Bool) (c : SessionCfg) (o : GdbOracle)
    (s : MiState) :
    (continueExecution reverse c o s).isOk = true ∧
    (∀ id hit s1, continueExecution reverse c o s = .ok (id, hit) s1 →
      (id = o.stops s.nStops ∧
       s1.trace = s.trace ++ [("exec-continue", if reverse then ["--reverse"] else [])] ∧
       s1.nStops = s.nStops + 1 ∧
       (hit = true ↔
         ∃ p ∈ s.bps, p.1 = id ∧ p.2.state = .enabled ∧ p.2.bpType ≠ .internal) ∧
       ((∃ p ∈ s.bps, p.1 = id ∧ p.2.state = .enabled ∧ p.2.bpType ≠ .internal ∧
           p.2.temporary = true) →
         (alistLookup s1.bps id = none ∧ ∀ q ∈ s.bps, q.1 ≠ id → q ∈ s1.bps)) ∧
       ((¬ ∃ p ∈ s.bps, p.1 = id ∧ p.2.state = .enabled ∧ p.2.bpType ≠ .internal ∧
           p.2.temporary = true) → s1.bps = s.bps))) := by
  rw [continueExecution_run]
  simp only [contCmd]
  by_cases ht : isEnabledPhpTemporaryBreakpoint s.bps (o.stops s.nStops)
  · simp only [ht, if_true]
    refine ⟨rfl, ?_⟩
    intro id hit s1 heq
    injection heq with h1 h2
    injection h1 with hid hhit
    subst hid; subst hhit; subst h2
    have htemp := (isEnabledPhpTemporaryBreakpoint_iff s.bps (o.stops s.nStops)).mp ht
    refine ⟨rfl, rfl, rfl, ?_, ?_, ?_⟩
    · constructor
      · intro _
        obtain ⟨p, hp, hk, hen, hty, -⟩ := htemp
        exact ⟨p, hp, hk, hen, hty⟩
      · intro _; rfl
    · intro _
      exact ⟨alistLookup_eraseBp s.bps (o.stops s.nStops),
        fun q hq hne => mem_eraseBp_of_ne s.bps (o.stops s.nStops) q hq hne⟩
    · intro hno
      exact absurd htemp hno
  · by_cases he : isEnabledPhpBreakpoint s.bps (o.stops s.nStops)
    · simp only [ht, he, Bool.false_eq_true, if_false, if_true]
      refine ⟨rfl, ?_⟩
      intro id hit s1 heq
      injection heq with h1 h2
      injection h1 with hid hhit
      subst hid; subst hhit; subst h2
      refine ⟨rfl, rfl, rfl, ?_, ?_, fun _ => rfl⟩
      · constructor
        · intro _
          exact (isEnabledPhpBreakpoint_iff s.bps (o.stops s.nStops)).mp he
        · intro _; rfl
      · intro hex
        exact absurd ((isEnabledPhpTemporaryBreakpoint_iff s.bps (o.stops s.nStops)).mpr hex) ht
    · simp only [ht, he, Bool.false_eq_true, if_false]
      refine ⟨rfl, ?_⟩
      intro id hit s1 heq
      injection heq with h1 h2
      injection h1 with hid hhit
      subst hid; subst hhit; subst h2
      refine ⟨rfl, rfl, rfl, ?_, ?_, fun _ => rfl⟩
      · constructor
        · intro hfalse; cases hfalse
        · intro hex
          exact absurd ((isEnabledPhpBreakpoint_iff s.bps (o.stops s.nStops)).mpr hex) he
      · intro hex
        exact absurd ((isEnabledPhpTemporaryBreakpoint_iff s.bps (o.stops s.nStops)).mpr hex) ht

/-! ## Concrete demonstration sessions used by witnesses and counterexamples -/

def demoCfg : SessionCfg := ⟨[5, 7, 9]⟩

/-- An enabled temporary user line breakpoint with gdb id "2". -/
def demoTempBp : EngineBreakPoint :=
  { id := "2", bpType := .line, filename := "file:///a.php", lineno := 12,
    state := .enabled, temporary := true }

/-- An enabled (non-temporary) user line breakpoint with gdb id "3". -/
def demoUserBp : EngineBreakPoint :=
  { id := "3", bpType := .line, filename := "file:///a.php", lineno := 20,
    state := .enabled, temporary := false }

def demoOracle : GdbOracle :=
  { stops := fun _ => "2", insertOk := fun _ => true, insertIds := fun _ => "4",
    evals := fun _ => .value "0x1 \"file:///a.php\"" }

def demoState : MiState :=
  { bps := initBreakpoints ++ [("2", demoTempBp), ("3", demoUserBp)],
    status := .atBreak, reason := .ok, featureMap := initFeatureMap,
    sourceMap := [("file:///a.php", 4)], lastSequenceNum := 0,
    nStops := 0, nInserts := 0, nEvals := 0, trace := [] }

/-- The state after `continueExecution false` on the demo session: the stop
fires the temporary breakpoint "2", which is consumed. -/
def demoStateAfterCont : MiState :=
  { demoState with
    bps := initBreakpoints ++ [("3", demoUserBp)],
    nStops := 1, trace := [("exec-continue", [])] }

theorem c2_witness :
    (continueExecution false demoCfg demoOracle demoState).isOk = true ∧
    alistLookup demoStateAfterCont.bps "2" = none ∧
    (∀ q ∈ demoState.bps, q.1 ≠ "2" → q ∈ demoStateAfterCont.bps) := by
  have h := c2_continue_classification false demoCfg demoOracle demoState
  have hrun : continueExecution false demoCfg demoOracle demoState =
      .ok ("2", true) demoStateAfterCont := by decide
  have h2 := h.2 "2" true demoStateAfterCont hrun
  have hdel := h2.2.2.2.2.1 (by decide)
  exact ⟨h.1, hdel.1, hdel.2⟩

/-! ## Unified run lemmas (no case split on list emptiness) -/

/-- The gdb commands a (possibly empty) enable/disable batch sends. -/
def guardCmd (cmd : String) (bpList : List String) : List (String × List String) :=
  if bpList.length > 0 then [(cmd, [joinSpace bpList])] else []

theorem setBpStateIn_nil (bps : List (String × EngineBreakPoint)) (st : BreakpointState) :
    setBpStateIn bps [] st = bps := by
  simp [setBpStateIn, List.contains]

theorem disableGdbBreakpoints_run2 (bpList : List String) (c : SessionCfg) (o : GdbOracle)
    (s : MiState) :
    disableGdbBreakpoints bpList c o s =
      .ok () { s with bps := setBpStateIn s.bps bpList .disabled,
                      trace := s.trace ++ guardCmd "break-disable" bpList } := by
  rw [disableGdbBreakpoints_run]
  unfold guardCmd
  split
  · rfl
  · rename_i h
    have hnil : bpList = [] := by
      cases bpList with
      | nil => rfl
      | cons x xs => exact absurd (by simp) h
    subst hnil
    rw [setBpStateIn_nil]
    simp

theorem enableGdbBreakpoints_run2 (bpList : List String) (c : SessionCfg) (o : GdbOracle)
    (s : MiState) :
    enableGdbBreakpoints bpList c o s =
      .ok () { s with bps := setBpStateIn s.bps bpList .enabled,
                      trace := s.trace ++ guardCmd "break-enable" bpList } := by
  rw [enableGdbBreakpoints_run]
  unfold guardCmd
  split
  · rfl
  · rename_i h
    have hnil : bpList = [] := by
      cases bpList with
      | nil => rfl
      | cons x xs => exact absurd (by simp) h
    subst hnil
    rw [setBpStateIn_nil]
    simp

/-- Enabled-implies-internal survives `eraseBp`. -/
theorem enabled_internal_preserved_erase (bps : List (String × EngineBreakPoint))
    (id : String) (h : ∀ p ∈ bps, p.2.state = .enabled → p.2.bpType = .internal) :
    ∀ p ∈ eraseBp bps id, p.2.state = .enabled → p.2.bpType = .internal := by
  intro p hp
  simp only [eraseBp, List.mem_filter] at hp
  exact h p hp.1

/-- Enabling only the master on a registry whose enabled entries are all
internal, when entry "1" is internal, keeps enabled entries internal. -/
theorem enabled_internal_enable_master (bps : List (String × EngineBreakPoint))
    (hM : ∀ p ∈ bps, p.1 = "1" → p.2.bpType = .internal)
    (hEI : ∀ p ∈ bps, p.2.state = .enabled → p.2.bpType = .internal) :
    ∀ p ∈ setBpStateIn bps ["1"] .enabled, p.2.state = .enabled → p.2.bpType = .internal := by
  intro p hp hen
  rw [mem_setBpStateIn] at hp
  obtain ⟨q, hq, hpq⟩ := hp
  by_cases hck : q.1 = "1"
  · have hc : (["1"] : List String).contains q.1 = true :=
      strContains_of_mem _ _ (by simp [hck])
    rw [if_pos hc] at hpq
    rw [hpq]
    exact hM q hq hck
  · have hc : (["1"] : List String).contains q.1 = false :=
      strContains_eq_false _ _ (by simp [hck])
    rw [if_neg (by rw [hc]; exact Bool.false_ne_true)] at hpq
    subst hpq
    exact hEI p hq hen

/-! ## C1: the reverse run algorithm -/

/-- Registry after the reverse-run prologue: user breakpoints disabled, one
master trip (enable, continue, disable), user breakpoints re-enabled. -/
def c1Bps4 (bps : List (String × EngineBreakPoint)) : List (String × EngineBreakPoint) :=
  setBpStateIn (setBpStateIn (setBpStateIn (setBpStateIn bps
    (getEnabledPhpBreakpoints bps) .disabled) ["1"] .enabled) ["1"] .disabled)
    (getEnabledPhpBreakpoints bps) .enabled

/-- Registry after the main reverse continue classified `stop1`: a fired
enabled temporary user breakpoint is consumed. -/
def c1Bps5 (bps : List (String × EngineBreakPoint)) (stop1 : String) :
    List (String × EngineBreakPoint) :=
  if isEnabledPhpTemporaryBreakpoint (c1Bps4 bps) stop1 then eraseBp (c1Bps4 bps) stop1
  else c1Bps4 bps

/-- The gdb commands of the reverse-run prologue and main continue. -/
def c1PrologueTrace (tr : List (String × List String))
    (bps : List (String × EngineBreakPoint)) : List (String × List String) :=
  tr ++ guardCmd "break-disable" (getEnabledPhpBreakpoints bps) ++
    [("break-enable", ["1"]), ("exec-continue", ["--reverse"]), ("break-disable", ["1"])] ++
    guardCmd "break-enable" (getEnabledPhpBreakpoints bps) ++
    [("exec-continue", ["--reverse"])]

/-- The gdb commands of the user-hit epilogue: disable user breakpoints,
read the depth, insert the depth breakpoint, continue in reverse, remove it,
one forward master trip, read filename and line, re-enable user
breakpoints. -/
def c1HitTrace (bpList2 : List String) (line : Int) (insertId : String) :
    List (String × List String) :=
  guardCmd "break-disable" bpList2 ++
    [("data-evaluate-expression", ["level"]),
     ("break-insert", ["-f --source dontbug_break.c --line " ++ intToDec line]),
     ("exec-continue", ["--reverse"]),
     ("break-delete", [insertId]),
     ("break-enable", ["1"]), ("exec-continue", []), ("break-disable", ["1"]),
     ("data-evaluate-expression", ["filename"]),
     ("data-evaluate-expression", ["lineno"])] ++
    guardCmd "break-enable" bpList2

/-- C1: a run request dispatched in reverse first disables the enabled user
breakpoints, performs one master trip in reverse, re-enables them, and
continues in reverse; on a user (or temporary user) hit it disables the user
breakpoints, inserts a depth breakpoint at the depth observed at the hit,
continues in reverse, removes it, performs one forward master trip, reads
filename and line, re-enables the user breakpoints, and returns a break
response with that filename and line; otherwise the request ends in the
"Unimplemented program end handling" engine panic. -/
theorem c1_run_reverse (c : SessionCfg) (o : GdbOracle) (s : MiState) (dCmd : DbgpCmd)
    (hM : ∀ p ∈ s.bps, p.1 = "1" → p.2.bpType = .internal)
    (lvlRaw fnameRaw lnRaw : String) (lvl lno : Int) (fname : String) (line : Int)
    (hev0 : o.evals s.nEvals = .value lvlRaw) (hlvl : goAtoi lvlRaw = some lvl)
    (hnn : ¬ lvl < 0) (hline : c.levelAr.get? lvl.toNat = some line)
    (hio : o.insertOk s.nInserts = true)
    (hev1 : o.evals (s.nEvals + 1) = .value fnameRaw)
    (hfname : parseGdbStringResponse fnameRaw = .ok fname)
    (hev2 : o.evals (s.nEvals + 1 + 1) = .value lnRaw) (hlno : goAtoi lnRaw = some lno) :
    ((isEnabledPhpTemporaryBreakpoint (c1Bps4 s.bps) (o.stops (s.nStops + 1)) ||
      isEnabledPhpBreakpoint (c1Bps4 s.bps) (o.stops (s.nStops + 1))) = true →
      ∃ sF, handleRun dCmd true c o s =
          .ok (.runOrStepBreak "run" dCmd.seqNum fname lno) sF ∧
        sF.trace = c1PrologueTrace s.trace s.bps ++
          c1HitTrace (getEnabledPhpBreakpoints (c1Bps5 s.bps (o.stops (s.nStops + 1))))
            line (o.insertIds s.nInserts)) ∧
    ((isEnabledPhpTemporaryBreakpoint (c1Bps4 s.bps) (o.stops (s.nStops + 1)) ||
      isEnabledPhpBreakpoint (c1Bps4 s.bps) (o.stops (s.nStops + 1))) = false →
      ∃ sp, handleRun dCmd true c o s =
          .panicked "Unimplemented program end handling" sp ∧
        sp.trace = c1PrologueTrace s.trace s.bps) := by
  have hEI_B := enabled_internal_after_masterenable s.bps hM
  have h0 := noPhpHit_of_enabled_internal _ hEI_B (o.stops s.nStops)
  have hM_A := masterType_preserved_set s.bps (getEnabledPhpBreakpoints s.bps) .disabled hM
  have hM_B := masterType_preserved_set _ ["1"] .enabled hM_A
  have hM_C := masterType_preserved_set _ ["1"] .disabled hM_B
  have hM_D := masterType_preserved_set _ (getEnabledPhpBreakpoints s.bps) .enabled hM_C
  constructor
  · intro hHit
    by_cases hT : isEnabledPhpTemporaryBreakpoint (c1Bps4 s.bps) (o.stops (s.nStops + 1))
    · -- temporary user hit: the registry entry is consumed
      have hT' := hT
      simp only [c1Bps4] at hT'
      have hM5 : ∀ p ∈ eraseBp (c1Bps4 s.bps) (o.stops (s.nStops + 1)), p.1 = "1" →
          p.2.bpType = .internal := by
        simp only [c1Bps4]
        exact masterType_preserved_erase _ _ (by simpa [c1Bps4] using hM_D)
      have hEI_E := enabled_internal_after_disable
        (eraseBp (c1Bps4 s.bps) (o.stops (s.nStops + 1)))
      have h3 := noPhpHit_of_enabled_internal _ hEI_E (o.stops (s.nStops + 1 + 1))
      have hM_E := masterType_preserved_set _
        (getEnabledPhpBreakpoints (eraseBp (c1Bps4 s.bps) (o.stops (s.nStops + 1))))
        .disabled hM5
      have hM_F := masterType_preserved_erase _ (o.insertIds s.nInserts) hM_E
      have hEI_F := enabled_internal_preserved_erase _ (o.insertIds s.nInserts) hEI_E
      have hG := enabled_internal_enable_master _ hM_F hEI_F
      have h4 := noPhpHit_of_enabled_internal _ hG (o.stops (s.nStops + 1 + 1 + 1))
      simp only [c1Bps4] at h3 hEI_E hM_E hM_F hEI_F hG h4
      simp only [handleRun, Bind.bind, Pure.pure, M.bind_run, M.pure_run, getBps_run,
        Bool.not_true, Bool.false_eq_true, if_true, ite_true, if_false, ite_false,
        gotoMasterBpLocation_run, continueExecution_run,
        disableGdbBreakpoints_run2, enableGdbBreakpoints_run2, removeGdbBreakpoint_run,
        xSlashDgdb, xSlashSgdb, xGdbCmdValue, setPhpStackLevelBreakpointInGdb, panicM,
        hev0, hlvl, hnn, hline, hio, hev1, hfname, hev2, hlno,
        contCmd, h0.1, h0.2, hT', h3.1, h3.2, h4.1, h4.2, dontbugMasterBp]
      refine ⟨_, rfl, ?_⟩
      simp only [c1PrologueTrace, c1HitTrace, c1Bps5, c1Bps4, hT', if_true, ite_true,
        eq_self_iff_true, List.append_assoc, List.singleton_append, List.cons_append,
        List.nil_append]
    · -- plain enabled user hit
      have he : isEnabledPhpBreakpoint (c1Bps4 s.bps) (o.stops (s.nStops + 1)) = true := by
        rcases Bool.or_eq_true_iff.mp hHit with h | h
        · exact absurd h hT
        · exact h
      have hT' : isEnabledPhpTemporaryBreakpoint (c1Bps4 s.bps)
          (o.stops (s.nStops + 1)) = false := by simpa using hT
      have he' := he
      simp only [c1Bps4] at hT' he'
      have hM5 : ∀ p ∈ c1Bps4 s.bps, p.1 = "1" → p.2.bpType = .internal := by
        simpa [c1Bps4] using hM_D
      have hEI_E := enabled_internal_after_disable (c1Bps4 s.bps)
      have h3 := noPhpHit_of_enabled_internal _ hEI_E (o.stops (s.nStops + 1 + 1))
      have hM_E := masterType_preserved_set _
        (getEnabledPhpBreakpoints (c1Bps4 s.bps)) .disabled hM5
      have hM_F := masterType_preserved_erase _ (o.insertIds s.nInserts) hM_E
      have hEI_F := enabled_internal_preserved_erase _ (o.insertIds s.nInserts) hEI_E
      have hG := enabled_internal_enable_master _ hM_F hEI_F
      have h4 := noPhpHit_of_enabled_internal _ hG (o.stops (s.nStops + 1 + 1 + 1))
      simp only [c1Bps4] at h3 hEI_E hM_E hM_F hEI_F hG h4
      simp only [handleRun, Bind.bind, Pure.pure, M.bind_run, M.pure_run, getBps_run,
        Bool.not_true, Bool.false_eq_true, if_true, ite_true, if_false, ite_false,
        gotoMasterBpLocation_run, continueExecution_run,
        disableGdbBreakpoints_run2, enableGdbBreakpoints_run2, removeGdbBreakpoint_run,
        xSlashDgdb, xSlashSgdb, xGdbCmdValue, setPhpStackLevelBreakpointInGdb, panicM,
        hev0, hlvl, hnn, hline, hio, hev1, hfname, hev2, hlno,
        contCmd, h0.1, h0.2, hT', he', h3.1, h3.2, h4.1, h4.2, dontbugMasterBp]
      refine ⟨_, rfl, ?_⟩
      simp only [c1PrologueTrace, c1HitTrace, c1Bps5, c1Bps4, hT', if_false, ite_false,
        Bool.false_eq_true, List.append_assoc, List.singleton_append, List.cons_append,
        List.nil_append]
  · intro hMiss
    have hmt : isEnabledPhpTemporaryBreakpoint (c1Bps4 s.bps)
        (o.stops (s.nStops + 1)) = false := by
      rcases Bool.or_eq_false_iff.mp hMiss with ⟨h1, h2⟩
      exact h1
    have hme : isEnabledPhpBreakpoint (c1Bps4 s.bps) (o.stops (s.nStops + 1)) = false := by
      rcases Bool.or_eq_false_iff.mp hMiss with ⟨h1, h2⟩
      exact h2
    simp only [c1Bps4] at hmt hme
    simp only [handleRun, Bind.bind, Pure.pure, M.bind_run, M.pure_run, getBps_run,
      Bool.not_true, Bool.false_eq_true, if_true, ite_true, if_false, ite_false,
      gotoMasterBpLocation_run, continueExecution_run,
      disableGdbBreakpoints_run2, enableGdbBreakpoints_run2, removeGdbBreakpoint_run,
      contCmd, h0.1, h0.2, hmt, hme, dontbugMasterBp, panicM]
    refine ⟨_, rfl, ?_⟩
    simp only [c1PrologueTrace, List.append_assoc, List.singleton_append,
      List.cons_append, List.nil_append]

/-- A concrete run request with sequence number 5. -/
def c1DemoCmd : DbgpCmd :=
  { command := "run", fullCommand := "run -i 5", options := [("i", "5")], seqNum := 5 }

/-- A gdb oracle for the reverse-run demo: the main reverse continue stops on
user breakpoint "3"; the engine then reads depth 1, and after the trap reads
filename and line 20. -/
def c1Oracle : GdbOracle :=
  { stops := fun n => if n = 1 then "3" else "1",
    insertOk := fun _ => true, insertIds := fun _ => "4",
    evals := fun n =>
      if n = 0 then .value "1"
      else if n = 1 then .value "0x1 \"file:///a.php\"" else .value "20" }

theorem c1_run_reverse_witness :
    ∃ sF, handleRun c1DemoCmd true demoCfg c1Oracle demoState =
        .ok (.runOrStepBreak "run" 5 "file:///a.php" 20) sF ∧
      sF.trace = c1PrologueTrace demoState.trace demoState.bps ++
        c1HitTrace (getEnabledPhpBreakpoints (c1Bps5 demoState.bps (c1Oracle.stops 1)))
          7 "4" := by
  have h := c1_run_reverse demoCfg c1Oracle demoState c1DemoCmd (by decide)
    "1" "0x1 \"file:///a.php\"" "20" 1 20 "file:///a.php" 7
    (by decide) (by decide) (by decide) (by decide) (by decide)
    (by decide) (by rfl) (by decide) (by decide)
  exact h.1 (by decide)

/-! ## C4: breakpoint_set of type line -/

/-- C4: a line breakpoint_set on a file absent from the location index sends
nothing to gdb, leaves the state (registry included) unchanged, and returns
error code 200 with the no-such-file message; on a mapped file with a
successful gdb insert and a fresh gdb id, the handler inserts the breakpoint
on the file's instrumentation line conditioned on lineno equaling the
requested line, appends a line-kind registry entry recording id, file, line,
state and temporary flag, and answers with the gdb id; a duplicate gdb id is
fatal. -/
theorem c4_breakpoint_set_line (dCmd : DbgpCmd) (c : SessionCfg) (o : GdbOracle)
    (s : MiState) (phpFilename lineStr : String) (phpLineno : Int)
    (hf : alistLookup dCmd.options "f" = some phpFilename)
    (hs : alistLookup dCmd.options "s" = none)
    (hn : alistLookup dCmd.options "n" = some lineStr)
    (hr : alistLookup dCmd.options "r" = none)
    (hh : alistLookup dCmd.options "h" = none)
    (ho : alistLookup dCmd.options "o" = none)
    (hatoi : goAtoi lineStr = some phpLineno) :
    (alistLookup s.sourceMap phpFilename = none →
      handleBreakpointSetLineBreakpoint dCmd c o s =
        .ok (.errorResp "breakpoint_set" dCmd.seqNum 200 (noSuchFileWarning phpFilename))
          s) ∧
    (∀ internalLineno, alistLookup s.sourceMap phpFilename = some internalLineno →
      o.insertOk s.nInserts = true →
      alistLookup s.bps (o.insertIds s.nInserts) = none →
      handleBreakpointSetLineBreakpoint dCmd c o s =
        .ok (.breakpointSetLine dCmd.seqNum "enabled" (o.insertIds s.nInserts))
          { s with
            trace := s.trace ++ [("break-insert -f -c \"lineno == " ++
              intToDec phpLineno ++ "\" --source dontbug_break.c --line " ++
              natToDec internalLineno, [])],
            nInserts := s.nInserts + 1,
            bps := s.bps ++ [(o.insertIds s.nInserts,
              { id := o.insertIds s.nInserts, bpType := .line, filename := phpFilename,
                lineno := phpLineno, state := .enabled, temporary := false })] }) ∧
    (∀ disabled temporary : Bool, ∀ internalLineno,
      alistLookup s.sourceMap phpFilename = some internalLineno →
      o.insertOk s.nInserts = true →
      alistLookup s.bps (o.insertIds s.nInserts) = none →
      setPhpBreakpointInGdb phpFilename phpLineno disabled temporary c o s =
        .ok (.ok (o.insertIds s.nInserts))
          { s with
            trace := s.trace ++ [("break-insert " ++ (if temporary then "-t " else "") ++
              (if disabled then "-d " else "") ++ "-f -c \"lineno == " ++
              intToDec phpLineno ++ "\" --source dontbug_break.c --line " ++
              natToDec internalLineno, [])],
            nInserts := s.nInserts + 1,
            bps := s.bps ++ [(o.insertIds s.nInserts,
              { id := o.insertIds s.nInserts, bpType := .line, filename := phpFilename,
                lineno := phpLineno,
                state := if disabled then .disabled else .enabled,
                temporary := temporary })] }) ∧
    (∀ internalLineno p, alistLookup s.sourceMap phpFilename = some internalLineno →
      o.insertOk s.nInserts = true →
      alistLookup s.bps (o.insertIds s.nInserts) = some p →
      setPhpBreakpointInGdb phpFilename phpLineno false false c o s =
        .fatal ("breakpoint number returned by gdb not unique:" ++
          o.insertIds s.nInserts)) := by
  refine ⟨?_, ?_, ?_, ?_⟩
  · intro hmap
    simp [handleBreakpointSetLineBreakpoint, handleBreakpointSetLineAux,
      setPhpBreakpointInGdb, Bind.bind, Pure.pure, M.bind, M.pure,
      hf, hs, hn, hr, hh, ho, hatoi, hmap]
  · intro internalLineno hmap hok hfresh
    simp [handleBreakpointSetLineBreakpoint, handleBreakpointSetLineAux,
      setPhpBreakpointInGdb, Bind.bind, Pure.pure, M.bind, M.pure,
      hf, hs, hn, hr, hh, ho, hatoi, hmap, hok, hfresh]
  · intro disabled temporary internalLineno hmap hok hfresh
    simp [setPhpBreakpointInGdb, hmap, hok, hfresh]
  · intro internalLineno p hmap hok hdup
    simp [setPhpBreakpointInGdb, hmap, hok, hdup]

/-- A line breakpoint_set request on the mapped file of the demo session. -/
def c4SetCmd : DbgpCmd :=
  { command := "breakpoint_set",
    fullCommand := "breakpoint_set -t line -f file:///a.php -n 9 -i 7",
    options := [("t", "line"), ("f", "file:///a.php"), ("n", "9")], seqNum := 7 }

/-- A line breakpoint_set request on a file unknown to the demo session. -/
def c4NoFileCmd : DbgpCmd :=
  { command := "breakpoint_set",
    fullCommand := "breakpoint_set -t line -f file:///b.php -n 9 -i 7",
    options := [("t", "line"), ("f", "file:///b.php"), ("n", "9")], seqNum := 7 }

theorem c4_breakpoint_set_line_witness :
    handleBreakpointSetLineBreakpoint c4NoFileCmd demoCfg demoOracle demoState =
      .ok (.errorResp "breakpoint_set" 7 200 (noSuchFileWarning "file:///b.php"))
        demoState ∧
    handleBreakpointSetLineBreakpoint c4SetCmd demoCfg demoOracle demoState =
      .ok (.breakpointSetLine 7 "enabled" "4")
        { demoState with
          trace := [("break-insert -f -c \"lineno == 9\" --source dontbug_break.c --line 4",
            [])],
          nInserts := 1,
          bps := demoState.bps ++ [("4",
            { id := "4", bpType := .line, filename := "file:///a.php", lineno := 9,
              state := .enabled, temporary := false })] } := by
  constructor
  · exact (c4_breakpoint_set_line c4NoFileCmd demoCfg demoOracle demoState
      "file:///b.php" "9" 9 (by decide) (by decide) (by decide) (by decide)
      (by decide) (by decide) (by decide)).1 (by decide)
  · have h := (c4_breakpoint_set_line c4SetCmd demoCfg demoOracle demoState
      "file:///a.php" "9" 9 (by decide) (by decide) (by decide) (by decide)
      (by decide) (by decide) (by decide)).2.1 4 (by decide) (by decide) (by decide)
    rw [h]
    have h9 : intToDec 9 = "9" := by
      rw [intToDec, if_neg (by decide), natToDec, natDecDigits]
      decide
    have h4n : natToDec 4 = "4" := by
      rw [natToDec, natDecDigits]
      decide
    rw [h9, h4n]
    rfl

/-! ## C6: the master stepping breakpoint -/

theorem alistLookup_setBpStateIn (bps : List (String × EngineBreakPoint))
    (ids : List String) (st : BreakpointState) (k : String) :
    alistLookup (setBpStateIn bps ids st) k =
      (alistLookup bps k).map fun v =>
        if ids.contains k then { v with state := st } else v := by
  induction bps with
  | nil => rfl
  | cons p rest ih =>
    obtain ⟨k1, v⟩ := p
    have hstep : setBpStateIn ((k1, v) :: rest) ids st =
        (if ids.contains k1 = true then (k1, { v with state := st }) else (k1, v)) ::
          setBpStateIn rest ids st := rfl
    rw [hstep]
    by_cases h : k1 = k
    · subst h
      by_cases hc : ids.contains k1 = true
      · rw [if_pos hc]
        simp only [alistLookup, eq_self_iff_true, if_true, hc]
        rfl
      · have hc2 : ids.contains k1 = false := by simpa using hc
        rw [if_neg hc]
        simp only [alistLookup, eq_self_iff_true, if_true, hc2,
          Bool.false_eq_true, if_false, ite_false]
        rfl
    · by_cases hc : ids.contains k1 = true
      · rw [if_pos hc]
        simp [alistLookup, h, ih]
      · rw [if_neg hc]
        simp [alistLookup, h, ih]

theorem alistLookup_eraseBp_ne (bps : List (String × EngineBreakPoint))
    (d k : String) (h : d ≠ k) :
    alistLookup (eraseBp bps d) k = alistLookup bps k := by
  induction bps with
  | nil => rfl
  | cons p rest ih =>
    obtain ⟨k1, v⟩ := p
    by_cases hk : k1 = d
    · have hstep : eraseBp ((k1, v) :: rest) d = eraseBp rest d := by
        simp [eraseBp, List.filter_cons, hk]
      rw [hstep, ih]
      have hne : k1 ≠ k := by rw [hk]; exact h
      simp [alistLookup, hne]
    · have hstep : eraseBp ((k1, v) :: rest) d = (k1, v) :: eraseBp rest d := by
        simp [eraseBp, List.filter_cons, hk]
      rw [hstep]
      by_cases hkk : k1 = k
      · simp [alistLookup, hkk]
      · simp [alistLookup, hkk, ih]

/-- If every registry entry under the master key is internal, a stop on id
"1" never classifies as a user hit. -/
theorem master_no_php_hit (bps : List (String × EngineBreakPoint))
    (hM : ∀ p ∈ bps, p.1 = "1" → p.2.bpType = .internal) :
    isEnabledPhpBreakpoint bps "1" = false ∧
      isEnabledPhpTemporaryBreakpoint bps "1" = false := by
  constructor
  · rw [← Bool.not_eq_true, isEnabledPhpBreakpoint_iff]
    rintro ⟨p, hp, hk, hen, hty⟩
    exact hty (hM p hp hk)
  · rw [← Bool.not_eq_true, isEnabledPhpTemporaryBreakpoint_iff]
    rintro ⟨p, hp, hk, hen, hty, htmp⟩
    exact hty (hM p hp hk)

/-- A breakpoint_remove request naming the reserved master id "1". -/
def c6RemoveCmd : DbgpCmd :=
  { command := "breakpoint_remove", fullCommand := "breakpoint_remove -d 1 -i 9",
    options := [("d", "1")], seqNum := 9 }

/-- C6 counterexample: `breakpoint_remove -d 1` deletes the master stepping
breakpoint's registry entry — an operation of the session does remove it. -/
theorem c6_counterexample :
    alistLookup demoState.bps "1" =
      some { id := "1", bpType := .internal, filename := "dontbug.c",
             lineno := dontbugCstepLineNum, state := .disabled, temporary := false } ∧
    handleBreakpointRemove c6RemoveCmd demoCfg demoOracle demoState =
      .ok (.breakpointRemoveOrUpdate "breakpoint_remove" 9)
        { demoState with bps := eraseBp demoState.bps "1",
                         trace := [("break-delete", ["1"])] } ∧
    alistLookup (eraseBp demoState.bps "1") "1" = none := by
  refine ⟨by decide, by decide, by decide⟩

/-- C6 (amended): the master breakpoint is created at startup under the
reserved id "1" on the step line, disabled and internal; a master trip
returns it disabled with its entry intact; the continue primitive never
touches its entry; and breakpoint_remove for any other id preserves it.
(Only `breakpoint_remove -d 1` can delete it, as the counterexample
shows.) -/
theorem c6_master_lifecycle (c : SessionCfg) (o : GdbOracle) (s : MiState)
    (q : EngineBreakPoint) (hq : alistLookup s.bps "1" = some q)
    (hM : ∀ p ∈ s.bps, p.1 = "1" → p.2.bpType = .internal) :
    (alistLookup initBreakpoints "1" =
      some { id := "1", bpType := .internal, filename := "dontbug.c",
             lineno := dontbugCstepLineNum, state := .disabled, temporary := false }) ∧
    (∀ reverse r s1, gotoMasterBpLocation reverse c o s = .ok r s1 →
      alistLookup s1.bps "1" = some { q with state := .disabled }) ∧
    (∀ reverse r s1, continueExecution reverse c o s = .ok r s1 →
      alistLookup s1.bps "1" = some q) ∧
    (∀ dCmd d, alistLookup dCmd.options "d" = some d → d ≠ "1" →
      ∀ resp s1, handleBreakpointRemove dCmd c o s = .ok resp s1 →
        alistLookup s1.bps "1" = some q) := by
  have hM1 := masterType_preserved_set s.bps ["1"] .enabled hM
  refine ⟨by rfl, ?_, ?_, ?_⟩
  · intro reverse r s1 hgoto
    rw [gotoMasterBpLocation_run] at hgoto
    simp only [dontbugMasterBp] at hgoto
    injection hgoto with h1 h2
    subst h2
    have hlk1 : alistLookup (setBpStateIn s.bps ["1"] .enabled) "1" =
        some { q with state := .enabled } := by
      rw [alistLookup_setBpStateIn, hq]
      simp [List.contains]
    have hin : alistLookup
        (if isEnabledPhpTemporaryBreakpoint (setBpStateIn s.bps ["1"] .enabled)
            (o.stops s.nStops) = true then
          eraseBp (setBpStateIn s.bps ["1"] .enabled) (o.stops s.nStops)
        else setBpStateIn s.bps ["1"] .enabled) "1" =
        some { q with state := .enabled } := by
      by_cases ht : isEnabledPhpTemporaryBreakpoint (setBpStateIn s.bps ["1"] .enabled)
          (o.stops s.nStops) = true
      · rw [if_pos ht]
        by_cases hb : o.stops s.nStops = "1"
        · rw [hb] at ht
          exact absurd ht (by simp [(master_no_php_hit _ hM1).2])
        · rw [alistLookup_eraseBp_ne _ _ _ hb]
          exact hlk1
      · rw [if_neg ht]
        exact hlk1
    rw [alistLookup_setBpStateIn, hin]
    simp [List.contains]
  · intro reverse r s1 hrun
    rw [continueExecution_run] at hrun
    simp only [] at hrun
    by_cases ht : isEnabledPhpTemporaryBreakpoint s.bps (o.stops s.nStops) = true
    · rw [if_pos ht] at hrun
      injection hrun with h1 h2
      subst h2
      by_cases hb : o.stops s.nStops = "1"
      · rw [hb] at ht
        exact absurd ht (by simp [(master_no_php_hit _ hM).2])
      · show alistLookup (eraseBp s.bps (o.stops s.nStops)) "1" = some q
        rw [alistLookup_eraseBp_ne _ _ _ hb]
        exact hq
    · rw [if_neg ht] at hrun
      by_cases he : isEnabledPhpBreakpoint s.bps (o.stops s.nStops) = true
      · rw [if_pos he] at hrun
        injection hrun with h1 h2
        subst h2
        exact hq
      · rw [if_neg he] at hrun
        injection hrun with h1 h2
        subst h2
        exact hq
  · intro dCmd d hd hne resp s1 hrun
    simp only [handleBreakpointRemove, hd, Bind.bind, Pure.pure, M.bind, M.pure,
      removeGdbBreakpoint, sendGdb, modifyBps] at hrun
    injection hrun with h1 h2
    subst h2
    show alistLookup (eraseBp s.bps d) "1" = some q
    rw [alistLookup_eraseBp_ne _ _ _ hne]
    exact hq

theorem c6_master_lifecycle_witness :
    alistLookup demoStateAfterCont.bps "1" =
      some { id := "1", bpType := .internal, filename := "dontbug.c",
             lineno := dontbugCstepLineNum, state := .disabled, temporary := false } := by
  exact (c6_master_lifecycle demoCfg demoOracle demoState
    { id := "1", bpType := .internal, filename := "dontbug.c",
      lineno := dontbugCstepLineNum, state := .disabled, temporary := false }
    (by decide) (by decide)).2.2.1 false ("2", true) demoStateAfterCont (by decide)

/-! ## C7: panic recovery at the request boundary -/

def MiResult.panicMsg {α : Type} : MiResult α → Option String
  | .panicked m _ => some m
  | _ => none

/-- A gdb oracle on which every data-evaluate-expression fails (reply class
is not `done`), so every diversion-backed command panics. -/
def c7Oracle : GdbOracle :=
  { stops := fun _ => "1", insertOk := fun _ => true, insertIds := fun _ => "4",
    evals := fun _ => .noClass }

/-- C7 counterexample: a stack_get whose gdb command fails does not produce
an error response — the loop ends with no response at all and the IDE
connection is shut down, so the following status request is never served. -/
theorem c7_counterexample :
    ideLoop false ["stack_get -i 3", "status -i 4"] demoCfg c7Oracle demoState =
      ([], .panicked
        "Could not execute the gdb/mi command: data-evaluate-expression dontbug_xdebug_cmd(\"stack_get -i 3\")") := by
  decide

/-- C7 (amended): a machine-debugger failure inside the handling of a DBGp
request is recovered only at the goroutine edge of the IDE loop: the
panicking request gets no response (error or otherwise), later queued
requests are never served, and the connection is shut down.  The
recover-and-continue semantics exists only in
`recoverableDiversionSessionCmd`, which is not on the DBGp dispatch path:
it swallows the panic and yields the zero-value string. -/
theorem c7_panic_ends_connection (reverse : Bool) (req : String) (rest : List String)
    (c : SessionCfg) (o : GdbOracle) (s : MiState) (m : String)
    (hstat : ¬ s.status = .stopped)
    (hp : (dispatchIdeRequest req reverse c o s).panicMsg = some m) :
    ideLoop reverse (req :: rest) c o s = ([], .panicked m) ∧
    (∀ command, (recoverableDiversionSessionCmd command c o s).isPanicked = false) := by
  constructor
  · cases h : dispatchIdeRequest req reverse c o s with
    | ok a s1 => rw [h] at hp; exact absurd hp (by simp [MiResult.panicMsg])
    | panicked m0 sp =>
      rw [h] at hp
      simp only [MiResult.panicMsg, Option.some.injEq] at hp
      subst hp
      simp [ideLoop, hstat, h]
    | fatal m0 => rw [h] at hp; exact absurd hp (by simp [MiResult.panicMsg])
  · intro command
    cases h : diversionSessionCmd command c o s <;>
      simp [recoverableDiversionSessionCmd, h, MiResult.isPanicked]

theorem c7_panic_ends_connection_witness :
    ideLoop false ["stack_get -i 3", "status -i 4"] demoCfg c7Oracle
      { demoState with trace := [("noop", [])] } =
      ([], .panicked
        "Could not execute the gdb/mi command: data-evaluate-expression dontbug_xdebug_cmd(\"stack_get -i 3\")") :=
  (c7_panic_ends_connection false "stack_get -i 3" ["status -i 4"] demoCfg c7Oracle
    { demoState with trace := [("noop", [])] }
    "Could not execute the gdb/mi command: data-evaluate-expression dontbug_xdebug_cmd(\"stack_get -i 3\")"
    (by decide) (by decide)).1

/-! ## C8: feature_get never reaches its handler -/

/-- A feature_get request for the known feature `encoding`. -/
def c8KnownCmd : DbgpCmd :=
  { command := "feature_get", fullCommand := "feature_get -i 2 -n encoding",
    options := [("i", "2"), ("n", "encoding")], seqNum := 2 }

/-- A feature_get request for an unknown feature name. -/
def c8UnknownCmd : DbgpCmd :=
  { command := "feature_get", fullCommand := "feature_get -i 3 -n bogus",
    options := [("i", "3"), ("n", "bogus")], seqNum := 3 }

/-- C8: the dispatch switch has no feature_get case, so every feature_get
request falls to the default arm and dies in the "Unimplemented command"
panic — the session does not continue.  The feature_get handler itself,
which would return supported=1 with the current value for a known feature
and supported=0 for an unknown one, is unreachable dead code. -/
theorem c8_feature_get_unreachable :
    (dispatchIdeRequest "feature_get -i 2 -n encoding" false demoCfg demoOracle
        demoState).panicMsg =
      some "Unimplemented command:feature_get -i 2 -n encoding" ∧
    handleFeatureGet c8KnownCmd demoCfg demoOracle demoState =
      .ok (.featureGet 2 "encoding" 1 "ISO-8859-1") demoState ∧
    handleFeatureGet c8UnknownCmd demoCfg demoOracle demoState =
      .ok (.featureGet 3 "bogus" 0 "<nil>") demoState := by
  refine ⟨by decide, by decide, by decide⟩

/-! ## C9: repeated sequence numbers -/

/-- C9 counterexample: a request whose sequence number exactly repeats the
last dispatched one (7, with lastSequenceNum = 7) is not rejected — it is
dispatched normally and answered. -/
theorem c9_counterexample :
    dispatchIdeRequest "status -i 7" false demoCfg demoOracle
        { demoState with lastSequenceNum := 7 } =
      .ok (.statusResp 7 .atBreak .ok) { demoState with lastSequenceNum := 7 } := by
  decide

/-- C9 (amended): only a sequence number strictly below the last dispatched
one is treated as a protocol error — an engine panic raised before any
handler runs, which ends the IDE loop with no response; a sequence number
equal to (or above) the last one is dispatched to its handler. -/
theorem c9_sequence_check (command : String) (reverse : Bool) (c : SessionCfg)
    (o : GdbOracle) (s : MiState) (dCmd : DbgpCmd)
    (hparse : parseCommand command = .ok dCmd) :
    (s.lastSequenceNum > dCmd.seqNum →
      dispatchIdeRequest command reverse c o s =
        .panicked ("Sequence number" ++ intToDec dCmd.seqNum ++
          "has already been seen") s) ∧
    (s.lastSequenceNum > dCmd.seqNum → ¬ s.status = .stopped → ∀ rest,
      ideLoop reverse (command :: rest) c o s =
        ([], .panicked ("Sequence number" ++ intToDec dCmd.seqNum ++
          "has already been seen"))) ∧
    (¬ s.lastSequenceNum > dCmd.seqNum →
      dispatchIdeRequest command reverse c o s =
        dispatchSwitch dCmd reverse command c o
          { s with lastSequenceNum := dCmd.seqNum }) := by
  refine ⟨?_, ?_, ?_⟩
  · intro h
    simp [dispatchIdeRequest, hparse, h]
  · intro h hstat rest
    have hd : dispatchIdeRequest command reverse c o s =
        .panicked ("Sequence number" ++ intToDec dCmd.seqNum ++
          "has already been seen") s := by
      simp [dispatchIdeRequest, hparse, h]
    simp [ideLoop, hstat, hd]
  · intro h
    simp [dispatchIdeRequest, hparse, h]

theorem c9_sequence_check_witness :
    dispatchIdeRequest "status -i 5" false demoCfg demoOracle
        { demoState with lastSequenceNum := 9 } =
      .panicked ("Sequence number" ++ intToDec 5 ++ "has already been seen")
        { demoState with lastSequenceNum := 9 } :=
  (c9_sequence_check "status -i 5" false demoCfg demoOracle
    { demoState with lastSequenceNum := 9 }
    { command := "status", fullCommand := "status -i 5", options := [("i", "5")],
      seqNum := 5 }
    (by rfl)).1 (by decide)

/-! ## C10: step_out at script stack depth 0 -/

/-- `continueExecution` in single-result form: the classification conditions
appear only inside the returned value and registry, not around the result
constructor. -/
theorem continueExecution_run_state (reverse : Bool) (c : SessionCfg) (o : GdbOracle)
    (s : MiState) :
    continueExecution reverse c o s =
      .ok (o.stops s.nStops,
          isEnabledPhpTemporaryBreakpoint s.bps (o.stops s.nStops) ||
            isEnabledPhpBreakpoint s.bps (o.stops s.nStops))
        { s with
          status := .atBreak, nStops := s.nStops + 1,
          trace := s.trace ++ [contCmd reverse],
          bps := if isEnabledPhpTemporaryBreakpoint s.bps (o.stops s.nStops) then
              eraseBp s.bps (o.stops s.nStops)
            else s.bps } := by
  rw [continueExecution_run]
  by_cases h1 : isEnabledPhpTemporaryBreakpoint s.bps (o.stops s.nStops) = true
  · simp [h1]
  · by_cases h2 : isEnabledPhpBreakpoint s.bps (o.stops s.nStops) = true
    · simp [h1, h2]
    · simp [h1, h2]

/-- C10: a step_out issued while the script stack depth is 0 places the
depth-transient breakpoint at depth 0 — exactly what step_over places —
stays inside the depth table, and completes with a break response, in both
directions: forward, and in reverse both when the trap continue reports a
user hit (the handler then re-reads the depth, traps again and aligns) and
when it does not.  After the depth limit is computed the step_out flag is
never consulted again, so in every case step_out and step_over produce the
same final engine state and the same response up to the command name. -/
theorem c10_step_out_depth_zero (dCmd : DbgpCmd) (c : SessionCfg) (o : GdbOracle)
    (s : MiState) (lvlRaw : String) (line : Int)
    (hev0 : o.evals s.nEvals = .value lvlRaw) (hlvl : goAtoi lvlRaw = some 0)
    (hline : c.levelAr.get? 0 = some line) (hio : o.insertOk s.nInserts = true) :
    (∀ fnameRaw lnRaw fname lno, o.evals (s.nEvals + 1) = .value fnameRaw →
      parseGdbStringResponse fnameRaw = .ok fname →
      o.evals (s.nEvals + 1 + 1) = .value lnRaw → goAtoi lnRaw = some lno →
      ∃ sF, handleStepOverOrOut dCmd false true c o s =
          .ok (.runOrStepBreak "step_out" dCmd.seqNum fname lno) sF ∧
        handleStepOverOrOut dCmd false false c o s =
          .ok (.runOrStepBreak "step_over" dCmd.seqNum fname lno) sF) ∧
    ((isEnabledPhpTemporaryBreakpoint s.bps (o.stops s.nStops) ||
      isEnabledPhpBreakpoint s.bps (o.stops s.nStops)) = true →
      ∀ lvl2Raw lvl2 line2 fnameRaw lnRaw fname lno,
        o.evals (s.nEvals + 1) = .value lvl2Raw → goAtoi lvl2Raw = some lvl2 →
        ¬ lvl2 < 0 → c.levelAr.get? lvl2.toNat = some line2 →
        o.insertOk (s.nInserts + 1) = true →
        o.evals (s.nEvals + 1 + 1) = .value fnameRaw →
        parseGdbStringResponse fnameRaw = .ok fname →
        o.evals (s.nEvals + 1 + 1 + 1) = .value lnRaw → goAtoi lnRaw = some lno →
        ∃ sF, handleStepOverOrOut dCmd true true c o s =
            .ok (.runOrStepBreak "step_out" dCmd.seqNum fname lno) sF ∧
          handleStepOverOrOut dCmd true false c o s =
            .ok (.runOrStepBreak "step_over" dCmd.seqNum fname lno) sF) ∧
    ((isEnabledPhpTemporaryBreakpoint s.bps (o.stops s.nStops) ||
      isEnabledPhpBreakpoint s.bps (o.stops s.nStops)) = false →
      ∀ fnameRaw lnRaw fname lno, o.evals (s.nEvals + 1) = .value fnameRaw →
        parseGdbStringResponse fnameRaw = .ok fname →
        o.evals (s.nEvals + 1 + 1) = .value lnRaw → goAtoi lnRaw = some lno →
        ∃ sF, handleStepOverOrOut dCmd true true c o s =
            .ok (.runOrStepBreak "step_out" dCmd.seqNum fname lno) sF ∧
          handleStepOverOrOut dCmd true false c o s =
            .ok (.runOrStepBreak "step_over" dCmd.seqNum fname lno) sF) := by
  have hline2 : c.levelAr[0]? = some line := by simpa using hline
  refine ⟨?_, ?_, ?_⟩
  · intro fnameRaw lnRaw fname lno hev1 hfname hev2 hlno
    simp only [handleStepOverOrOut, Bind.bind, Pure.pure, M.bind_run, M.pure_run,
      getBps_run, xSlashDgdb, xSlashSgdb, xGdbCmdValue, setPhpStackLevelBreakpointInGdb,
      continueExecution_run_state, removeGdbBreakpoint_run, gotoMasterBpLocation_run,
      hev0, hlvl, hio, hev1, hfname, hev2, hlno]
    simp only [hline2, hline, hio, hev1, hfname, hev2, hlno, M.bind_run, M.pure_run,
      removeGdbBreakpoint_run, gotoMasterBpLocation_run, xGdbCmdValue, panicM,
      Bind.bind, Pure.pure, gt_iff_lt, lt_self_iff_false, decide_eq_true_eq,
      Bool.true_and, Bool.false_and, Bool.not_false, ite_true, ite_false, if_true,
      if_false, Int.toNat_zero, Bool.false_eq_true, decide_False, Int.lt_irrefl]
    exact ⟨_, rfl, rfl⟩
  · intro hHit lvl2Raw lvl2 line2 fnameRaw lnRaw fname lno hevA hlvl2 hnn2 hlineB hioB
      hevB hfname hevC hlno
    have hl2 : c.levelAr[lvl2.toNat]? = some line2 := by simpa using hlineB
    simp only [handleStepOverOrOut, Bind.bind, Pure.pure, M.bind_run, M.pure_run,
      getBps_run, xSlashDgdb, xSlashSgdb, xGdbCmdValue, setPhpStackLevelBreakpointInGdb,
      continueExecution_run_state, removeGdbBreakpoint_run, gotoMasterBpLocation_run,
      disableGdbBreakpoints_run2, enableGdbBreakpoints_run2,
      hev0, hlvl, hio, hevA, hlvl2, hioB, hevB, hfname, hevC, hlno, hHit]
    simp only [hline2, hline, hl2, hlineB, hnn2, hio, hioB, M.bind_run, M.pure_run,
      getBps_run, xSlashDgdb, xSlashSgdb, xGdbCmdValue, setPhpStackLevelBreakpointInGdb,
      continueExecution_run_state, disableGdbBreakpoints_run2, enableGdbBreakpoints_run2,
      removeGdbBreakpoint_run, gotoMasterBpLocation_run, panicM,
      Bind.bind, Pure.pure, gt_iff_lt, lt_self_iff_false, decide_eq_true_eq,
      Bool.true_and, Bool.false_and, Bool.not_false, Bool.not_true, ite_true,
      ite_false, if_true, if_false, Int.toNat_zero, Bool.false_eq_true, decide_False,
      Int.lt_irrefl, eq_self_iff_true, hevB, hfname, hevC, hlno, hHit, hevA, hlvl2]
    exact ⟨_, rfl, rfl⟩
  · intro hMiss fnameRaw lnRaw fname lno hev1 hfname hev2 hlno
    simp only [handleStepOverOrOut, Bind.bind, Pure.pure, M.bind_run, M.pure_run,
      getBps_run, xSlashDgdb, xSlashSgdb, xGdbCmdValue, setPhpStackLevelBreakpointInGdb,
      continueExecution_run_state, removeGdbBreakpoint_run, gotoMasterBpLocation_run,
      disableGdbBreakpoints_run2, enableGdbBreakpoints_run2,
      hev0, hlvl, hio, hev1, hfname, hev2, hlno, hMiss]
    simp only [hline2, hline, hio, hev1, hfname, hev2, hlno, hMiss, M.bind_run,
      M.pure_run, getBps_run, xSlashDgdb, xSlashSgdb, xGdbCmdValue,
      setPhpStackLevelBreakpointInGdb, continueExecution_run_state,
      disableGdbBreakpoints_run2, enableGdbBreakpoints_run2,
      removeGdbBreakpoint_run, gotoMasterBpLocation_run,
      panicM, Bind.bind, Pure.pure, gt_iff_lt, lt_self_iff_false, decide_eq_true_eq,
      Bool.true_and, Bool.false_and, Bool.not_false, Bool.not_true, ite_true,
      ite_false, if_true, if_false, Int.toNat_zero, Bool.false_eq_true, decide_False,
      Int.lt_irrefl, eq_self_iff_true]
    exact ⟨_, rfl, rfl⟩

/-- A gdb oracle for the depth-zero step demo: the depth reads 0, then
filename and line 20 after the step completes; every stop reports the
master breakpoint, so a reverse trap continue sees no user hit. -/
def c10Oracle : GdbOracle :=
  { stops := fun _ => "1", insertOk := fun _ => true, insertIds := fun _ => "4",
    evals := fun n =>
      if n = 0 then .value "0"
      else if n = 1 then .value "0x1 \"file:///a.php\"" else .value "20" }

/-- A gdb oracle whose stops report the enabled temporary user breakpoint
"2", so a reverse trap continue sees a user hit; the depth reads 0 both
before and after the trap, then filename and line 20. -/
def c10HitOracle : GdbOracle :=
  { stops := fun _ => "2", insertOk := fun _ => true, insertIds := fun _ => "4",
    evals := fun n =>
      if n = 0 then .value "0"
      else if n = 1 then .value "0"
      else if n = 2 then .value "0x1 \"file:///a.php\"" else .value "20" }

/-- A step_out request with sequence number 11. -/
def c10Cmd : DbgpCmd :=
  { command := "step_out", fullCommand := "step_out -i 11",
    options := [("i", "11")], seqNum := 11 }

theorem c10_step_out_depth_zero_witness :
    (∃ sF, handleStepOverOrOut c10Cmd false true demoCfg c10Oracle demoState =
        .ok (.runOrStepBreak "step_out" 11 "file:///a.php" 20) sF ∧
      handleStepOverOrOut c10Cmd false false demoCfg c10Oracle demoState =
        .ok (.runOrStepBreak "step_over" 11 "file:///a.php" 20) sF) ∧
    (∃ sG, handleStepOverOrOut c10Cmd true true demoCfg c10Oracle demoState =
        .ok (.runOrStepBreak "step_out" 11 "file:///a.php" 20) sG ∧
      handleStepOverOrOut c10Cmd true false demoCfg c10Oracle demoState =
        .ok (.runOrStepBreak "step_over" 11 "file:///a.php" 20) sG) ∧
    (∃ sH, handleStepOverOrOut c10Cmd true true demoCfg c10HitOracle demoState =
        .ok (.runOrStepBreak "step_out" 11 "file:///a.php" 20) sH ∧
      handleStepOverOrOut c10Cmd true false demoCfg c10HitOracle demoState =
        .ok (.runOrStepBreak "step_over" 11 "file:///a.php" 20) sH) := by
  refine ⟨?_, ?_, ?_⟩
  · exact (c10_step_out_depth_zero c10Cmd demoCfg c10Oracle demoState "0" 5
      (by decide) (by decide) (by decide) (by decide)).1
      "0x1 \"file:///a.php\"" "20" "file:///a.php" 20
      (by decide) (by rfl) (by decide) (by decide)
  · exact (c10_step_out_depth_zero c10Cmd demoCfg c10Oracle demoState "0" 5
      (by decide) (by decide) (by decide) (by decide)).2.2 (by decide)
      "0x1 \"file:///a.php\"" "20" "file:///a.php" 20
      (by decide) (by rfl) (by decide) (by decide)
  · exact (c10_step_out_depth_zero c10Cmd demoCfg c10HitOracle demoState "0" 5
      (by decide) (by decide) (by decide) (by decide)).2.1 (by decide)
      "0" 0 5 "0x1 \"file:///a.php\"" "20" "file:///a.php" 20
      (by decide) (by decide) (by decide) (by decide) (by decide) (by decide)
      (by rfl) (by decide) (by decide)

end Dontbug
